import Mathlib

/-!
Shallow embedding of the metric-computation layer of `dashboard_utils.py`
(repository `pancakebitgit/opciones`).

Modelling conventions:
* A pandas cell that may be `NaN` is an `Option ℚ` (`none` = missing/NaN).
* A `DataFrame` is the list of its column names together with its rows.
  A `Row` carries one field per column the metric engine ever reads or
  writes; a field is meaningful only when the corresponding column name is
  present in `cols` (adding a column in place = appending its name and
  filling the field; dropping it = removing the name and clearing the field,
  since pandas discards the data of a dropped column).
* Python exceptions are modelled by `PyErr`; a metric function returns the
  post-call state of its argument (pandas mutates in place, so the caller's
  table can change even when an exception is raised later in the body)
  together with `Except PyErr result`.
* `Series.sum()` skips NaN and returns 0 on an empty or all-NaN series:
  `nansum`.
* `groupby('Strike')` drops rows whose key is NaN and iterates groups in
  ascending key order: `sortedStrikes` / `groupSumBy`.
* `numpy` float arithmetic on NaN propagates NaN: per-row products are
  `none` as soon as one operand is missing.
-/

namespace Opciones

/-- One row of the chain table.  Base columns first, then the derived
columns that `calculate_money_at_risk`, `calculate_gex`,
`calculate_vega_exposure`, `calculate_theta_exposure` and the `Total`
grouping of `calculate_put_call_ratio` materialize in place. -/
structure Row where
  strike : Option ℚ := none
  type : Option String := none
  volume : Option ℚ := none
  openInterest : Option ℚ := none
  bid : Option ℚ := none
  ask : Option ℚ := none
  midPrice : Option ℚ := none
  gamma : Option ℚ := none
  vega : Option ℚ := none
  theta : Option ℚ := none
  midPriceFilled : Option ℚ := none
  moneyAtRisk : Option ℚ := none
  gexInd : Option ℚ := none
  dealerGEX : Option ℚ := none
  dealerVegaExposure : Option ℚ := none
  dealerThetaExposure : Option ℚ := none
  total : Option String := none
  deriving Repr, DecidableEq

/-- A pandas DataFrame: the list of present column names plus the rows. -/
structure DataFrame where
  cols : List String
  rows : List Row
  deriving Repr, DecidableEq

/-- Python exceptions the metric engine can raise. -/
inductive PyErr where
  | keyError (col : String)
  | typeError
  deriving Repr, DecidableEq

/-- Append a column name if it is not already present (pandas column
assignment keeps the position of an existing column). -/
def addColName (cs : List String) (c : String) : List String :=
  if cs.contains c then cs else cs ++ [c]

/-- pandas `Series.sum()`: skips NaN, 0 on empty. -/
def nansum : List (Option ℚ) → ℚ
  | [] => 0
  | none :: xs => nansum xs
  | some x :: xs => x + nansum xs

/-- The distinct non-null Strike values in ascending order: the group keys
of `groupby('Strike')` (which drops NaN keys and sorts), and the candidate
list `sorted(df['Strike'].unique())` of `calculate_max_pain` under its
documented precondition that `Strike` is non-null (Python's `sorted` on a
list containing NaN has unspecified order, so the model restricts the
candidates to the non-null cells). -/
def sortedStrikes (rows : List Row) : List ℚ :=
  ((rows.filterMap Row.strike).insertionSort (· ≤ ·)).dedup

/-- pandas `df.groupby('Strike')[col].sum().reset_index()`. -/
def groupSumBy (rows : List Row) (val : Row → Option ℚ) : List (ℚ × ℚ) :=
  (sortedStrikes rows).map
    (fun k => (k, nansum ((rows.filter (fun r => r.strike = some k)).map val)))

/-- First pair minimizing `v` (models `idxmin` / stable `argsort`, both of
which pick an index realizing the minimum; pandas `idxmin` picks the first
occurrence, and the theorems below only use that the result attains the
minimum). -/
def firstMinBy (v : ℚ × ℚ → ℚ) : List (ℚ × ℚ) → Option (ℚ × ℚ)
  | [] => none
  | p :: ps =>
    match firstMinBy v ps with
    | none => some p
    | some q => if v p ≤ v q then some p else some q

/-- Running sum: `cumsum` over the second components, carrying an
accumulator. -/
def cumsumAux (acc : ℚ) : List (ℚ × ℚ) → List (ℚ × ℚ × ℚ)
  | [] => []
  | (k, v) :: xs => (k, v, acc + v) :: cumsumAux (acc + v) xs

/-! ## Numeric / percentage normalizer (`dashboard_utils.py` lines 4-16) -/

/-- Digits prefix of a character list, with the remainder. -/
def takeDigits : List Char → List Char × List Char
  | [] => ([], [])
  | c :: cs =>
    if c.isDigit then
      let p := takeDigits cs
      (c :: p.1, p.2)
    else ([], c :: cs)

/-- Value of a digit string, most significant first. -/
def digitsToNat (ds : List Char) : ℕ :=
  ds.foldl (fun acc c => acc * 10 + (c.toNat - 48)) 0

/-- Exponent part of a float literal (after the letter e/E), applied to the
mantissa `num / den`: a negative exponent scales the denominator, a
positive one the numerator, and the rational is built with `mkRat`. -/
def parseExpPart (num : ℤ) (den : ℕ) (cs : List Char) : Option ℚ :=
  let p : Bool × List Char :=
    match cs with
    | '-' :: r => (true, r)
    | '+' :: r => (false, r)
    | _ => (false, cs)
  let d := takeDigits p.2
  if d.1.isEmpty || !d.2.isEmpty then none
  else
    let e := digitsToNat d.1
    if p.1 then some (mkRat num (den * 10 ^ e)) else some (mkRat (num * 10 ^ e) den)

/-- Model of `pd.to_numeric(·, errors='coerce')` on a single string cell:
optional surrounding spaces, optional sign, decimal digits with at most one
point (at least one digit), optional exponent; anything else coerces to
NaN (`none`). -/
def parseDecimal (s : String) : Option ℚ :=
  let cs := ((s.toList.dropWhile (· = ' ')).reverse.dropWhile (· = ' ')).reverse
  let p1 : Bool × List Char :=
    match cs with
    | '-' :: rest => (true, rest)
    | '+' :: rest => (false, rest)
    | _ => (false, cs)
  let ip := takeDigits p1.2
  let fp : List Char × List Char :=
    match ip.2 with
    | '.' :: rest => takeDigits rest
    | _ => ([], ip.2)
  if ip.1.isEmpty && fp.1.isEmpty then none
  else
    let num : ℤ :=
      (if p1.1 then -1 else 1) *
        (digitsToNat ip.1 * 10 ^ fp.1.length + digitsToNat fp.1 : ℕ)
    let den : ℕ := 10 ^ fp.1.length
    match fp.2 with
    | [] => some (mkRat num den)
    | 'e' :: rest => parseExpPart num den rest
    | 'E' :: rest => parseExpPart num den rest
    | _ => none

/-- `series.str.replace(',', '', regex=False)` on one cell. -/
def stripCommas (s : String) : String :=
  String.mk (s.toList.filter (· ≠ ','))

/-- `series.str.rstrip('%')` on one cell: strips every trailing percent
sign. -/
def rstripPercent (s : String) : String :=
  String.mk ((s.toList.reverse.dropWhile (· = '%')).reverse)

/-- The missing-value tokens replaced by NaN in both cleaners. -/
def missingTokens : List String := ["unch", "N/A", ""]

/-- `clean_numeric_column` (lines 4-9) on an object-dtype (string) series,
as the source's three vectorized passes: strip commas, replace the missing
tokens by NaN, `to_numeric(errors='coerce')`. -/
def clean_numeric_column (xs : List String) : List (Option ℚ) :=
  let s1 := xs.map stripCommas
  let s2 := s1.map (fun v => if missingTokens.contains v then none else some v)
  s2.map (fun v => v.bind parseDecimal)

/-- `clean_percentage_column` (lines 11-16) on an object-dtype series:
strip trailing percent signs, replace the missing tokens by NaN,
`to_numeric(errors='coerce')`, divide by 100 (NaN / 100 = NaN). -/
def clean_percentage_column (xs : List String) : List (Option ℚ) :=
  let s1 := xs.map rstripPercent
  let s2 := s1.map (fun v => if missingTokens.contains v then none else some v)
  (s2.map (fun v => v.bind parseDecimal)).map (fun q => q.map (fun x => x / 100))

/-- Single-cell composition of the numeric cleaner's passes. -/
def cleanNumericCell (s : String) : Option ℚ :=
  if missingTokens.contains (stripCommas s) then none
  else parseDecimal (stripCommas s)

/-- Single-cell composition of the percentage cleaner's passes. -/
def cleanPercentageCell (s : String) : Option ℚ :=
  if missingTokens.contains (rstripPercent s) then none
  else (parseDecimal (rstripPercent s)).map (fun x => x / 100)

/-- Chain-loader line 61: `MidPrice = (Bid + Ask) / 2` (NaN when either
side is missing, since NaN propagates through the float arithmetic). -/
def midPriceOf (bid ask : Option ℚ) : Option ℚ :=
  bid.bind (fun b => ask.map (fun a => (b + a) / 2))

/-! ## Metric engine (`dashboard_utils.py` lines 147-372) -/

/-- Group key of `calculate_put_call_ratio`: a strike, or the artificial
single group labelled Total. -/
inductive GroupKey where
  | strikeKey (k : ℚ)
  | totalKey
  deriving Repr, DecidableEq

/-- Loop body of `calculate_put_call_ratio` (lines 162-168) on one group:
put/call Volume and OpenInterest sums (NaN-skipping), each ratio NaN unless
its call-side denominator is strictly positive. -/
def pcRatiosOf (grows : List Row) : Option ℚ × Option ℚ :=
  let putsVolume := nansum ((grows.filter (fun r => r.type = some "put")).map Row.volume)
  let callsVolume := nansum ((grows.filter (fun r => r.type = some "call")).map Row.volume)
  let putsOI := nansum ((grows.filter (fun r => r.type = some "put")).map Row.openInterest)
  let callsOI := nansum ((grows.filter (fun r => r.type = some "call")).map Row.openInterest)
  (if callsVolume > 0 then some (putsVolume / callsVolume) else none,
   if callsOI > 0 then some (putsOI / callsOI) else none)

/-- Line 158: `df_griegas['Total'] = 'Total'` (adds or overwrites the
column in place). -/
def addTotal (df : DataFrame) : DataFrame :=
  { cols := addColName df.cols "Total",
    rows := df.rows.map (fun r => { r with total := some "Total" }) }

/-- Line 176: `df_griegas.drop(columns=['Total'], inplace=True)`; the
column's data is discarded. -/
def dropTotal (df : DataFrame) : DataFrame :=
  { cols := df.cols.filter (fun c => c ≠ "Total"),
    rows := df.rows.map (fun r => { r with total := none }) }

/-- `calculate_put_call_ratio` (lines 147-178).  Output rows are
`(group key, PC_Volume_Ratio, PC_OI_Ratio)`.  Column accesses inside the
per-group loop only raise when at least one group exists. -/
def calculate_put_call_ratios (d : Option DataFrame) (group_by_strike : Bool) :
    Option DataFrame × Except PyErr (List (GroupKey × Option ℚ × Option ℚ)) :=
  match d with
  | none => (none, .ok [])
  | some df =>
    if df.rows.isEmpty then (some df, .ok [])
    else
      match group_by_strike with
      | true =>
        if !df.cols.contains "Strike" then (some df, .error (.keyError "Strike"))
        else
          let keys := sortedStrikes df.rows
          if keys.isEmpty then (some df, .ok [])
          else if !df.cols.contains "Type" then (some df, .error (.keyError "Type"))
          else if !df.cols.contains "Volume" then (some df, .error (.keyError "Volume"))
          else if !df.cols.contains "OpenInterest" then (some df, .error (.keyError "OpenInterest"))
          else
            (some df, .ok (keys.map (fun k =>
              (GroupKey.strikeKey k,
               pcRatiosOf (df.rows.filter (fun r => r.strike = some k))))))
      | false =>
        let dfT := addTotal df
        if !dfT.cols.contains "Type" then (some dfT, .error (.keyError "Type"))
        else if !dfT.cols.contains "Volume" then (some dfT, .error (.keyError "Volume"))
        else if !dfT.cols.contains "OpenInterest" then (some dfT, .error (.keyError "OpenInterest"))
        else
          (some (dropTotal dfT), .ok [(GroupKey.totalKey, pcRatiosOf dfT.rows)])

/-- Lines 186-187: in-place creation of `MidPriceFilled` (`fillna(0)`) and
`MoneyAtRisk` (`OpenInterest * MidPriceFilled * 100`; NaN when
`OpenInterest` is NaN). -/
def moneyMutate (df : DataFrame) : DataFrame :=
  { cols := addColName (addColName df.cols "MidPriceFilled") "MoneyAtRisk",
    rows := df.rows.map (fun r =>
      { r with midPriceFilled := some (r.midPrice.getD 0),
               moneyAtRisk := r.openInterest.map (fun oi => oi * r.midPrice.getD 0 * 100) }) }

/-- `calculate_money_at_risk` (lines 180-191). -/
def calculate_money_at_risk (d : Option DataFrame) :
    Option DataFrame × Except PyErr (List (ℚ × ℚ)) :=
  match d with
  | none => (none, .ok [])
  | some df =>
    if df.rows.isEmpty || !df.cols.contains "OpenInterest" || !df.cols.contains "MidPrice" then
      (some df, .ok [])
    else
      let df1 := moneyMutate df
      if !df1.cols.contains "Strike" then (some df1, .error (.keyError "Strike"))
      else (some df1, .ok (groupSumBy df1.rows Row.moneyAtRisk))

/-- Loop body of `calculate_max_pain` (lines 223-233): aggregate intrinsic
cash value (times 100) owed to holders if the underlying settles at `k`;
NaN rows (missing Strike or OpenInterest) drop out of the NaN-skipping
sums exactly as in pandas. -/
def cashValueAt (rows : List Row) (k : ℚ) : ℚ :=
  let calls := rows.filter (fun r => r.type = some "call")
  let puts := rows.filter (fun r => r.type = some "put")
  (nansum (calls.map (fun r =>
      r.strike.bind (fun s => r.openInterest.map (fun oi => max 0 (k - s) * oi)))) +
   nansum (puts.map (fun r =>
      r.strike.bind (fun s => r.openInterest.map (fun oi => max 0 (s - k) * oi))))) * 100

/-- `calculate_max_pain` (lines 193-244): tabulate `cashValueAt` over the
ascending candidate strikes, return the candidate of the first minimal
total (`idxmin`), `none` on empty input. -/
def calculate_max_pain (d : Option DataFrame) :
    Option DataFrame × Except PyErr (Option ℚ) :=
  match d with
  | none => (none, .ok none)
  | some df =>
    if df.rows.isEmpty then (some df, .ok none)
    else if !df.cols.contains "Strike" then (some df, .error (.keyError "Strike"))
    else
      let strikes := sortedStrikes df.rows
      if strikes.isEmpty then (some df, .ok none)
      else if !df.cols.contains "Type" then (some df, .error (.keyError "Type"))
      else if !df.cols.contains "OpenInterest" then (some df, .error (.keyError "OpenInterest"))
      else
        let data := strikes.map (fun k => (k, cashValueAt df.rows k))
        (some df, .ok ((firstMinBy (fun p => p.2) data).map (fun p => p.1)))

/-- Lines 301 and 307: in-place creation of `GEX_ind` and `DealerGEX`
(`-Gamma * OpenInterest * 100`). -/
def gexMutate (df : DataFrame) : DataFrame :=
  { cols := addColName (addColName df.cols "GEX_ind") "DealerGEX",
    rows := df.rows.map (fun r =>
      { r with gexInd := r.gamma.bind (fun g => r.openInterest.map (fun oi => g * oi * 100)),
               dealerGEX := r.gamma.bind (fun g => r.openInterest.map (fun oi => -g * oi * 100)) }) }

/-- Gamma-flip selection, lines 334-351: when strikes with positive and
with negative `DealerGEX` both exist, the strike of minimal absolute
`DealerGEX` (line 343, `abs().argsort()[:1]`); otherwise, for a non-empty
per-strike table, the strike of minimal absolute `DealerGEX` (line 350,
`abs().idxmin()`); else `none`. -/
def gammaFlipOf (per : List (ℚ × ℚ)) : Option ℚ :=
  let above := per.filter (fun p => p.2 > 0)
  let below := per.filter (fun p => p.2 < 0)
  let flip1 : Option ℚ :=
    if !above.isEmpty && !below.isEmpty then
      (firstMinBy (fun p => |p.2|) per).map (fun p => p.1)
    else none
  match flip1 with
  | some k => some k
  | none =>
    if per.isEmpty then none
    else (firstMinBy (fun p => |p.2|) per).map (fun p => p.1)

/-- `calculate_gex` (lines 270-353): per-strike `DealerGEX` sums sorted
ascending with `CumulativeDealerGEX`, plus the gamma-flip strike. -/
def calculate_gex (d : Option DataFrame) :
    Option DataFrame × Except PyErr (List (ℚ × ℚ × ℚ) × Option ℚ) :=
  match d with
  | none => (none, .ok ([], none))
  | some df =>
    if df.rows.isEmpty || !df.cols.contains "Gamma" || !df.cols.contains "OpenInterest" then
      (some df, .ok ([], none))
    else
      let df1 := gexMutate df
      if !df1.cols.contains "Strike" then (some df1, .error (.keyError "Strike"))
      else
        let per := groupSumBy df1.rows Row.dealerGEX
        (some df1, .ok (cumsumAux 0 per, gammaFlipOf per))

/-- Line 361: in-place creation of `DealerVegaExposure`
(`-Vega * OpenInterest * 100`). -/
def vegaMutate (df : DataFrame) : DataFrame :=
  { cols := addColName df.cols "DealerVegaExposure",
    rows := df.rows.map (fun r =>
      { r with dealerVegaExposure :=
          r.vega.bind (fun v => r.openInterest.map (fun oi => -v * oi * 100)) }) }

/-- `calculate_vega_exposure` (lines 356-363): no guard at all — indexing
`None` raises `TypeError`, a missing `Vega` / `OpenInterest` / `Strike`
column raises `KeyError`, in the evaluation order of line 361 then the
`groupby` of line 362. -/
def calculate_vega_exposure (d : Option DataFrame) :
    Option DataFrame × Except PyErr (List (ℚ × ℚ)) :=
  match d with
  | none => (none, .error .typeError)
  | some df =>
    if !df.cols.contains "Vega" then (some df, .error (.keyError "Vega"))
    else if !df.cols.contains "OpenInterest" then (some df, .error (.keyError "OpenInterest"))
    else
      let df1 := vegaMutate df
      if !df1.cols.contains "Strike" then (some df1, .error (.keyError "Strike"))
      else (some df1, .ok (groupSumBy df1.rows Row.dealerVegaExposure))

/-- Line 370: in-place creation of `DealerThetaExposure`
(`-Theta * OpenInterest * 100`). -/
def thetaMutate (df : DataFrame) : DataFrame :=
  { cols := addColName df.cols "DealerThetaExposure",
    rows := df.rows.map (fun r =>
      { r with dealerThetaExposure :=
          r.theta.bind (fun t => r.openInterest.map (fun oi => -t * oi * 100)) }) }

/-- `calculate_theta_exposure` (lines 365-372): same unguarded shape as
`calculate_vega_exposure`. -/
def calculate_theta_exposure (d : Option DataFrame) :
    Option DataFrame × Except PyErr (List (ℚ × ℚ)) :=
  match d with
  | none => (none, .error .typeError)
  | some df =>
    if !df.cols.contains "Theta" then (some df, .error (.keyError "Theta"))
    else if !df.cols.contains "OpenInterest" then (some df, .error (.keyError "OpenInterest"))
    else
      let df1 := thetaMutate df
      if !df1.cols.contains "Strike" then (some df1, .error (.keyError "Strike"))
      else (some df1, .ok (groupSumBy df1.rows Row.dealerThetaExposure))

/-! ## General lemmas about the embedding's building blocks -/

theorem contains_iff_mem (cs : List String) (c : String) : cs.contains c = true ↔ c ∈ cs :=
  List.elem_iff

theorem mem_addColName {cs : List String} {c a : String} :
    a ∈ addColName cs c ↔ a ∈ cs ∨ a = c := by
  unfold addColName
  split
  · rename_i h
    constructor
    · exact Or.inl
    · rintro (h' | rfl)
      · exact h'
      · exact (contains_iff_mem cs a).mp h
  · simp [List.mem_append]

theorem subset_addColName (cs : List String) (c : String) : cs ⊆ addColName cs c :=
  fun _ h => mem_addColName.mpr (Or.inl h)

theorem addColName_of_mem {cs : List String} {c : String} (h : c ∈ cs) :
    addColName cs c = cs := by
  unfold addColName
  rw [if_pos ((contains_iff_mem cs c).mpr h)]

theorem isEmpty_map {α β : Type _} (f : α → β) (l : List α) :
    (l.map f).isEmpty = l.isEmpty := by
  cases l <;> rfl

theorem nansum_eq_filterMap_sum (xs : List (Option ℚ)) :
    nansum xs = (xs.filterMap id).sum := by
  induction xs with
  | nil => rfl
  | cons x xs ih => cases x <;> simp [nansum, ih]

theorem nansum_map_eq_sum {α : Type _} (l : List α) (f : α → Option ℚ) (g : α → ℚ)
    (h : ∀ a ∈ l, f a = some (g a)) : nansum (l.map f) = (l.map g).sum := by
  induction l with
  | nil => rfl
  | cons a l ih =>
    have ha := h a (List.mem_cons_self a l)
    simp only [List.map_cons, ha, nansum, List.sum_cons]
    rw [ih (fun b hb => h b (List.mem_cons_of_mem a hb))]

theorem filterMap_congr_local {α β : Type _} {f g : α → Option β} (l : List α)
    (h : ∀ a ∈ l, f a = g a) : l.filterMap f = l.filterMap g := by
  induction l with
  | nil => rfl
  | cons a l ih =>
    rw [List.filterMap_cons, List.filterMap_cons, h a (List.mem_cons_self a l),
      ih (fun b hb => h b (List.mem_cons_of_mem a hb))]

theorem filter_congr_local {α : Type _} {p q : α → Bool} (l : List α)
    (h : ∀ a ∈ l, p a = q a) : l.filter p = l.filter q := by
  induction l with
  | nil => rfl
  | cons a l ih =>
    rw [List.filter_cons, List.filter_cons, h a (List.mem_cons_self a l),
      ih (fun b hb => h b (List.mem_cons_of_mem a hb))]

theorem mem_sortedStrikes {rows : List Row} {k : ℚ} :
    k ∈ sortedStrikes rows ↔ ∃ r ∈ rows, r.strike = some k := by
  unfold sortedStrikes
  rw [List.mem_dedup, List.mem_insertionSort, List.mem_filterMap]

theorem sortedStrikes_sorted (rows : List Row) : (sortedStrikes rows).Sorted (· < ·) := by
  apply List.Sorted.lt_of_le
  · exact (List.sorted_insertionSort _ _).sublist (List.dedup_sublist _)
  · exact List.nodup_dedup _

theorem sortedStrikes_ne_nil {rows : List Row} {r : Row} {k : ℚ}
    (hr : r ∈ rows) (hk : r.strike = some k) : sortedStrikes rows ≠ [] := by
  intro h
  have : k ∈ sortedStrikes rows := mem_sortedStrikes.mpr ⟨r, hr, hk⟩
  rw [h] at this
  exact absurd this (List.not_mem_nil k)

theorem firstMinBy_eq_none (v : ℚ × ℚ → ℚ) (l : List (ℚ × ℚ)) :
    firstMinBy v l = none ↔ l = [] := by
  cases l with
  | nil => simp [firstMinBy]
  | cons p ps =>
    simp only [firstMinBy]
    constructor
    · intro h
      cases hm : firstMinBy v ps <;> rw [hm] at h
      · cases h
      · rename_i q
        by_cases hv : v p ≤ v q <;> simp [hv] at h
    · intro h
      cases h

theorem firstMinBy_spec (v : ℚ × ℚ → ℚ) (l : List (ℚ × ℚ)) (h : l ≠ []) :
    ∃ p, firstMinBy v l = some p ∧ p ∈ l ∧ ∀ q ∈ l, v p ≤ v q := by
  induction l with
  | nil => exact absurd rfl h
  | cons a l ih =>
    cases hm : firstMinBy v l with
    | none =>
      have hl : l = [] := (firstMinBy_eq_none v l).mp hm
      subst hl
      exact ⟨a, by simp [firstMinBy], List.mem_cons_self a [],
        by intro q hq; rw [List.mem_singleton] at hq; rw [hq]⟩
    | some b =>
      have hlne : l ≠ [] := by
        intro h'; subst h'; simp [firstMinBy] at hm
      obtain ⟨p, hp, hpmem, hpmin⟩ := ih hlne
      rw [hm] at hp
      injection hp with hp
      subst hp
      by_cases hv : v a ≤ v b
      · refine ⟨a, by simp [firstMinBy, hm, hv], List.mem_cons_self a l, ?_⟩
        intro q hq
        rcases List.mem_cons.mp hq with rfl | hq'
        · exact le_refl _
        · exact le_trans hv (hpmin q hq')
      · refine ⟨b, by simp [firstMinBy, hm, hv], List.mem_cons_of_mem a hpmem, ?_⟩
        intro q hq
        rcases List.mem_cons.mp hq with rfl | hq'
        · exact le_of_lt (lt_of_not_le hv)
        · exact hpmin q hq'

theorem firstMinBy_first (v : ℚ × ℚ → ℚ) (l : List (ℚ × ℚ))
    (hs : l.Pairwise (fun a b => a.1 < b.1)) {p : ℚ × ℚ}
    (hm : firstMinBy v l = some p) : ∀ q ∈ l, q.1 < p.1 → v p < v q := by
  induction l with
  | nil => cases hm
  | cons a l ih =>
    rw [List.pairwise_cons] at hs
    cases hl : firstMinBy v l with
    | none =>
      have : l = [] := (firstMinBy_eq_none v l).mp hl
      subst this
      simp only [firstMinBy] at hm
      injection hm with hm
      subst hm
      intro q hq hlt
      rw [List.mem_singleton] at hq
      subst hq
      exact absurd hlt (lt_irrefl _)
    | some b =>
      simp only [firstMinBy, hl] at hm
      by_cases hv : v a ≤ v b
      · rw [if_pos hv] at hm
        injection hm with hm
        subst hm
        intro q hq hlt
        rcases List.mem_cons.mp hq with rfl | hq'
        · exact absurd hlt (lt_irrefl _)
        · exact absurd hlt (not_lt_of_gt (hs.1 q hq'))
      · rw [if_neg hv] at hm
        injection hm with hm
        subst hm
        intro q hq hlt
        rcases List.mem_cons.mp hq with rfl | hq'
        · exact lt_of_not_le hv
        · exact ih hs.2 hl q hq' hlt

theorem cumsumAux_proj (acc : ℚ) (xs : List (ℚ × ℚ)) :
    (cumsumAux acc xs).map (fun p => (p.1, p.2.1)) = xs := by
  induction xs generalizing acc with
  | nil => rfl
  | cons x xs ih =>
    cases x with
    | mk k v => simp [cumsumAux, ih]

theorem cumsumAux_length (acc : ℚ) (xs : List (ℚ × ℚ)) :
    (cumsumAux acc xs).length = xs.length := by
  induction xs generalizing acc with
  | nil => rfl
  | cons x xs ih =>
    cases x with
    | mk k v => simp [cumsumAux, ih]

theorem cumsumAux_cum (xs : List (ℚ × ℚ)) (acc : ℚ) (i : ℕ)
    (h : i < (cumsumAux acc xs).length) :
    ((cumsumAux acc xs).get ⟨i, h⟩).2.2 =
      acc + ((xs.map (fun p => p.2)).take (i + 1)).sum := by
  induction xs generalizing acc i with
  | nil => simp [cumsumAux] at h
  | cons x xs ih =>
    cases x with
    | mk k v =>
      cases i with
      | zero => simp [cumsumAux]
      | succ i =>
        simp only [cumsumAux, List.get, List.map_cons, List.take, List.sum_cons]
        rw [ih]
        ring

/-! ## Claim-level definitions -/

/-- The rows of one `calculate_put_call_ratio` group: the rows at a strike,
or every row for the artificial Total group. -/
def groupRows (df : DataFrame) : GroupKey → List Row
  | .strikeKey k => df.rows.filter (fun r => r.strike = some k)
  | .totalKey => df.rows

/-- Sum of one column over the rows of one option type inside a group
(NaN-skipping, as pandas). -/
def typeSum (grows : List Row) (t : String) (val : Row → Option ℚ) : ℚ :=
  nansum ((grows.filter (fun r => r.type = some t)).map val)

/-- The specification's value(K): aggregate intrinsic cash value owed to
option holders at settlement K, written from the spec's formula with plain
(non-skipping) sums over the call rows and the put rows. -/
def specValue (rows : List Row) (k : ℚ) : ℚ :=
  (((rows.filter (fun r => r.type = some "call")).map
      (fun r => max 0 (k - r.strike.getD 0) * r.openInterest.getD 0)).sum +
   ((rows.filter (fun r => r.type = some "put")).map
      (fun r => max 0 (r.strike.getD 0 - k) * r.openInterest.getD 0)).sum) * 100

/-- One-row chain: OI 10, Bid 1.0, Ask 1.2, MidPrice 1.1 (the value the
loader's formula produces from this Bid and Ask, see the
`midPriceOf`-conjunct of the money-at-risk theorem). -/
def marExampleDf : DataFrame :=
  { cols := ["Strike", "OpenInterest", "MidPrice"],
    rows := [{ strike := some 100, openInterest := some 10,
               bid := some 1, ask := some (1.2 : ℚ), midPrice := some (1.1 : ℚ) }] }

/-- A non-empty chain slice lacking the Vega and Theta columns. -/
def noGreekDf : DataFrame :=
  { cols := ["Strike", "OpenInterest"],
    rows := [{ strike := some 100, openInterest := some 1 }] }

/-- The base (pre-existing, loader-produced) cells of a row: everything the
metric engine reads, as opposed to the derived columns it writes. -/
def Row.baseFields (r : Row) :
    Option ℚ × Option String × Option ℚ × Option ℚ × Option ℚ × Option ℚ ×
      Option ℚ × Option ℚ × Option ℚ × Option ℚ :=
  (r.strike, r.type, r.volume, r.openInterest, r.bid, r.ask, r.midPrice,
   r.gamma, r.vega, r.theta)

/-- Grouped sums over mapped rows, when the map preserves the Strike cell:
the group keys are unchanged and the summed column is read through the
map. -/
theorem groupSumBy_map (rows : List Row) (g : Row → Row) (val : Row → Option ℚ)
    (hstrike : ∀ r, (g r).strike = r.strike) :
    groupSumBy (rows.map g) val =
      (sortedStrikes rows).map
        (fun k => (k, nansum ((rows.filter (fun r => r.strike = some k)).map
          (fun r => val (g r))))) := by
  have hfm : (rows.map g).filterMap Row.strike = rows.filterMap Row.strike := by
    rw [List.filterMap_map]
    exact filterMap_congr_local rows (fun r _ => hstrike r)
  have hs : sortedStrikes (rows.map g) = sortedStrikes rows := by
    unfold sortedStrikes
    rw [hfm]
  unfold groupSumBy
  rw [hs]
  apply List.map_congr_left
  intro k _
  have hf : (rows.map g).filter (fun r => r.strike = some k) =
      (rows.filter (fun r => r.strike = some k)).map g := by
    rw [List.filter_map]
    congr 1
    exact filter_congr_local rows (fun r _ => by
      show decide ((g r).strike = some k) = decide (r.strike = some k)
      rw [hstrike r])
  rw [hf, List.map_map]
  rfl

/-! ## C8: the two column cleaners -/

/-- C8 counterexample: the claim asserts that, like `clean_numeric_column`,
`clean_percentage_column` maps the string "1,234.5" to the number 1234.5
(before its division by 100, hence to 12.345 = 2469/200 as output).  It
does not: the percentage cleaner never strips thousands-separator commas,
so the cell coerces to missing. -/
theorem clean_percentage_comma_counterexample :
    clean_percentage_column ["1,234.5"] = [none] ∧
    clean_percentage_column ["1,234.5"] ≠ [some ((2469 : ℚ) / 200)] ∧
    clean_numeric_column ["1,234.5"] = [some (mkRat 2469 2)] ∧
    mkRat 2469 2 = (1234.5 : ℚ) := by
  refine ⟨by decide, by decide, by decide, ?_⟩
  rw [Rat.mkRat_eq_div]
  norm_num

/-- C8 amended: both cleaners map the tokens "unch", "N/A" and "" to
missing; `clean_numeric_column` maps "1,234.5" to 1234.5, while
`clean_percentage_column` leaves the comma in place so "1,234.5" becomes
missing; each column function is the elementwise map of its single-cell
composition, and any cell whose cleaned text fails to parse becomes
missing rather than an error. -/
theorem cleaners_amended (xs : List String) :
    clean_numeric_column xs = xs.map cleanNumericCell ∧
    clean_percentage_column xs = xs.map cleanPercentageCell ∧
    (∀ s ∈ missingTokens, cleanNumericCell s = none ∧ cleanPercentageCell s = none) ∧
    cleanNumericCell "1,234.5" = some (mkRat 2469 2) ∧
    cleanPercentageCell "1,234.5" = none ∧
    (∀ s, parseDecimal (stripCommas s) = none → cleanNumericCell s = none) ∧
    (∀ s, parseDecimal (rstripPercent s) = none → cleanPercentageCell s = none) := by
  refine ⟨?_, ?_, ?_, by decide, by decide, ?_, ?_⟩
  · unfold clean_numeric_column
    rw [List.map_map, List.map_map]
    apply List.map_congr_left
    intro s _
    simp only [Function.comp]
    unfold cleanNumericCell
    split <;> rfl
  · unfold clean_percentage_column
    rw [List.map_map, List.map_map, List.map_map]
    apply List.map_congr_left
    intro s _
    simp only [Function.comp]
    unfold cleanPercentageCell
    split <;> rfl
  · intro s hs
    simp only [missingTokens, List.mem_cons, List.not_mem_nil, or_false] at hs
    rcases hs with rfl | rfl | rfl <;> exact ⟨by decide, by decide⟩
  · intro s h
    unfold cleanNumericCell
    split
    · rfl
    · exact h
  · intro s h
    unfold cleanPercentageCell
    split
    · rfl
    · rw [h]; rfl

/-- C8 amended, evaluated: the token "unch" is missing for both cleaners
and "1,234.5" parses to 1234.5 through the numeric cleaner. -/
theorem cleaners_amended_witness :
    cleanNumericCell "unch" = none ∧ cleanNumericCell "1,234.5" = some (mkRat 2469 2) :=
  ⟨((cleaners_amended []).2.2.1 "unch" (by decide)).1, (cleaners_amended []).2.2.2.1⟩

/-! ## Mutation structure of the metric engine -/

theorem moneyMutate_base (df : DataFrame) :
    (moneyMutate df).rows.map Row.baseFields = df.rows.map Row.baseFields := by
  show (df.rows.map _).map Row.baseFields = _
  rw [List.map_map]
  rfl

theorem gexMutate_base (df : DataFrame) :
    (gexMutate df).rows.map Row.baseFields = df.rows.map Row.baseFields := by
  show (df.rows.map _).map Row.baseFields = _
  rw [List.map_map]
  rfl

theorem vegaMutate_base (df : DataFrame) :
    (vegaMutate df).rows.map Row.baseFields = df.rows.map Row.baseFields := by
  show (df.rows.map _).map Row.baseFields = _
  rw [List.map_map]
  rfl

theorem thetaMutate_base (df : DataFrame) :
    (thetaMutate df).rows.map Row.baseFields = df.rows.map Row.baseFields := by
  show (df.rows.map _).map Row.baseFields = _
  rw [List.map_map]
  rfl

theorem moneyMutate_cols_subset (df : DataFrame) : df.cols ⊆ (moneyMutate df).cols :=
  (subset_addColName _ _).trans (subset_addColName _ _)

theorem gexMutate_cols_subset (df : DataFrame) : df.cols ⊆ (gexMutate df).cols :=
  (subset_addColName _ _).trans (subset_addColName _ _)

theorem vegaMutate_cols_subset (df : DataFrame) : df.cols ⊆ (vegaMutate df).cols :=
  subset_addColName _ _

theorem thetaMutate_cols_subset (df : DataFrame) : df.cols ⊆ (thetaMutate df).cols :=
  subset_addColName _ _

theorem addTotal_base (df : DataFrame) :
    (addTotal df).rows.map Row.baseFields = df.rows.map Row.baseFields := by
  show (df.rows.map _).map Row.baseFields = _
  rw [List.map_map]
  rfl

theorem max_pain_post (d : Option DataFrame) : (calculate_max_pain d).1 = d := by
  match d with
  | none => rfl
  | some df =>
    simp only [calculate_max_pain]
    repeat' split
    all_goals rfl

theorem pcr_true_post (df : DataFrame) :
    (calculate_put_call_ratios (some df) true).1 = some df := by
  simp only [calculate_put_call_ratios]
  repeat' split
  all_goals rfl

theorem dropTotal_addTotal (df : DataFrame) (hT : "Total" ∉ df.cols)
    (hrt : ∀ r ∈ df.rows, r.total = none) : dropTotal (addTotal df) = df := by
  cases df with
  | mk cols rows =>
    simp only [DataFrame.mk.injEq] at hT hrt ⊢
    unfold dropTotal addTotal addColName
    simp only
    congr 1
    · rw [if_neg (by simpa [contains_iff_mem] using hT), List.filter_append]
      have h1 : cols.filter (fun c => c ≠ "Total") = cols :=
        List.filter_eq_self.mpr (fun a ha => by
          simp only [ne_eq, decide_eq_true_eq]
          rintro rfl
          exact hT ha)
      have h2 : (["Total"] : List String).filter (fun c => c ≠ "Total") = [] := rfl
      rw [h1, h2, List.append_nil]
    · rw [List.map_map]
      have hpt : ∀ r ∈ rows, (({ { r with total := some "Total" } with
          total := none } : Row)) = r := by
        intro r hr
        have ht := hrt r hr
        cases r
        simp_all
      calc rows.map _ = rows.map id := List.map_congr_left hpt
        _ = rows := List.map_id rows

/-! ## C6: unguarded vega/theta exposure functions raise -/

/-- C6 (code bug): `calculate_vega_exposure` and `calculate_theta_exposure`
have no input guard at all — on a non-empty table lacking the Vega / Theta
column they raise `KeyError`, and on null input they raise `TypeError`,
instead of returning the explicit unavailable result (empty table) that the
error design prescribes and that the repository's own guarded generic
`calculate_exposure` (lines 249-250) implements for exactly these cases. -/
theorem vega_theta_raise_on_missing_column :
    (calculate_vega_exposure (some noGreekDf)).2 = .error (.keyError "Vega") ∧
    (calculate_vega_exposure none).2 = .error .typeError ∧
    (calculate_theta_exposure (some noGreekDf)).2 = .error (.keyError "Theta") ∧
    (calculate_theta_exposure none).2 = .error .typeError := by
  exact ⟨rfl, rfl, rfl, rfl⟩

/-! ## C4: in-place mutation of the caller's table -/

/-- C4 counterexample: `calculate_money_at_risk` mutates its input table,
appending the derived `MidPriceFilled` and `MoneyAtRisk` columns to the
caller's table, so after the call the input no longer has exactly its
original columns. -/
theorem money_at_risk_mutates_input :
    (calculate_money_at_risk (some marExampleDf)).1 ≠ some marExampleDf ∧
    ((calculate_money_at_risk (some marExampleDf)).1.map DataFrame.cols) =
      some ["Strike", "OpenInterest", "MidPrice", "MidPriceFilled", "MoneyAtRisk"] := by
  exact ⟨by decide, by decide⟩

/-- C4 amended: no metric function changes a pre-existing base-column cell
or removes a base column — stated for every function on every path,
including the Total grouping's error paths, where the caller's table keeps
the added `Total` column.  `calculate_max_pain` and the per-strike
`calculate_put_call_ratio` leave the caller's table entirely unchanged, and
the Total grouping restores it on its success path; but
`calculate_money_at_risk`, `calculate_gex`, `calculate_vega_exposure` and
`calculate_theta_exposure` materialize their derived columns in place on
the caller's table rather than on a copy: whenever their column guards
pass, the post-state table is exactly the input table with the named
derived columns appended to its column list and every row's derived cells
filled with the values computed from that row's base cells. -/
theorem metric_engine_mutation_amended (df : DataFrame)
    (hT : "Total" ∉ df.cols) (hrt : ∀ r ∈ df.rows, r.total = none) :
    (calculate_max_pain (some df)).1 = some df ∧
    (calculate_put_call_ratios (some df) true).1 = some df ∧
    (∀ out, (calculate_put_call_ratios (some df) false).2 = .ok out →
      (calculate_put_call_ratios (some df) false).1 = some df) ∧
    (∃ df', (calculate_put_call_ratios (some df) false).1 = some df' ∧
      df'.rows.map Row.baseFields = df.rows.map Row.baseFields ∧ df.cols ⊆ df'.cols) ∧
    (∃ df', (calculate_money_at_risk (some df)).1 = some df' ∧
      df'.rows.map Row.baseFields = df.rows.map Row.baseFields ∧ df.cols ⊆ df'.cols) ∧
    (df.rows.isEmpty = false → "OpenInterest" ∈ df.cols → "MidPrice" ∈ df.cols →
      (calculate_money_at_risk (some df)).1 = some (moneyMutate df) ∧
      (moneyMutate df).cols = addColName (addColName df.cols "MidPriceFilled") "MoneyAtRisk" ∧
      "MidPriceFilled" ∈ (moneyMutate df).cols ∧ "MoneyAtRisk" ∈ (moneyMutate df).cols ∧
      (moneyMutate df).rows = df.rows.map (fun r =>
        { r with midPriceFilled := some (r.midPrice.getD 0),
                 moneyAtRisk := r.openInterest.map (fun oi => oi * r.midPrice.getD 0 * 100) })) ∧
    (∃ df', (calculate_gex (some df)).1 = some df' ∧
      df'.rows.map Row.baseFields = df.rows.map Row.baseFields ∧ df.cols ⊆ df'.cols) ∧
    (df.rows.isEmpty = false → "Gamma" ∈ df.cols → "OpenInterest" ∈ df.cols →
      (calculate_gex (some df)).1 = some (gexMutate df) ∧
      (gexMutate df).cols = addColName (addColName df.cols "GEX_ind") "DealerGEX" ∧
      "GEX_ind" ∈ (gexMutate df).cols ∧ "DealerGEX" ∈ (gexMutate df).cols ∧
      (gexMutate df).rows = df.rows.map (fun r =>
        { r with gexInd := r.gamma.bind (fun g => r.openInterest.map (fun oi => g * oi * 100)),
                 dealerGEX := r.gamma.bind (fun g =>
                   r.openInterest.map (fun oi => -g * oi * 100)) })) ∧
    (∃ df', (calculate_vega_exposure (some df)).1 = some df' ∧
      df'.rows.map Row.baseFields = df.rows.map Row.baseFields ∧ df.cols ⊆ df'.cols) ∧
    ("Vega" ∈ df.cols → "OpenInterest" ∈ df.cols →
      (calculate_vega_exposure (some df)).1 = some (vegaMutate df) ∧
      (vegaMutate df).cols = addColName df.cols "DealerVegaExposure" ∧
      "DealerVegaExposure" ∈ (vegaMutate df).cols ∧
      (vegaMutate df).rows = df.rows.map (fun r =>
        { r with dealerVegaExposure :=
            r.vega.bind (fun v => r.openInterest.map (fun oi => -v * oi * 100)) })) ∧
    (∃ df', (calculate_theta_exposure (some df)).1 = some df' ∧
      df'.rows.map Row.baseFields = df.rows.map Row.baseFields ∧ df.cols ⊆ df'.cols) ∧
    ("Theta" ∈ df.cols → "OpenInterest" ∈ df.cols →
      (calculate_theta_exposure (some df)).1 = some (thetaMutate df) ∧
      (thetaMutate df).cols = addColName df.cols "DealerThetaExposure" ∧
      "DealerThetaExposure" ∈ (thetaMutate df).cols ∧
      (thetaMutate df).rows = df.rows.map (fun r =>
        { r with dealerThetaExposure :=
            r.theta.bind (fun t => r.openInterest.map (fun oi => -t * oi * 100)) })) := by
  refine ⟨?_, ?_, ?_, ?_, ?_, ?_, ?_, ?_, ?_, ?_, ?_, ?_⟩
  · exact max_pain_post (some df)
  · exact pcr_true_post df
  · intro out hout
    simp only [calculate_put_call_ratios] at hout ⊢
    split at hout
    · rename_i h1
      rw [if_pos h1]
    · rename_i h1
      split at hout
      · simp at hout
      · rename_i h2
        split at hout
        · simp at hout
        · rename_i h3
          split at hout
          · simp at hout
          · rename_i h4
            rw [if_neg h1, if_neg h2, if_neg h3, if_neg h4, dropTotal_addTotal df hT hrt]
  · simp only [calculate_put_call_ratios]
    split
    · exact ⟨df, rfl, rfl, fun a h => h⟩
    · split
      · exact ⟨addTotal df, rfl, addTotal_base df, subset_addColName df.cols "Total"⟩
      · split
        · exact ⟨addTotal df, rfl, addTotal_base df, subset_addColName df.cols "Total"⟩
        · split
          · exact ⟨addTotal df, rfl, addTotal_base df, subset_addColName df.cols "Total"⟩
          · refine ⟨dropTotal (addTotal df), rfl, ?_, ?_⟩
            · rw [dropTotal_addTotal df hT hrt]
            · rw [dropTotal_addTotal df hT hrt]
              exact fun a h => h
  · simp only [calculate_money_at_risk]
    split
    · exact ⟨df, rfl, rfl, fun a h => h⟩
    · split
      · exact ⟨moneyMutate df, rfl, moneyMutate_base df, moneyMutate_cols_subset df⟩
      · exact ⟨moneyMutate df, rfl, moneyMutate_base df, moneyMutate_cols_subset df⟩
  · intro hne hO hM
    refine ⟨?_, rfl, mem_addColName.mpr (Or.inl (mem_addColName.mpr (Or.inr rfl))),
      mem_addColName.mpr (Or.inr rfl), rfl⟩
    simp only [calculate_money_at_risk]
    rw [if_neg (by simp [hne, hO, hM])]
    split <;> rfl
  · simp only [calculate_gex]
    split
    · exact ⟨df, rfl, rfl, fun a h => h⟩
    · split
      · exact ⟨gexMutate df, rfl, gexMutate_base df, gexMutate_cols_subset df⟩
      · exact ⟨gexMutate df, rfl, gexMutate_base df, gexMutate_cols_subset df⟩
  · intro hne hG hO
    refine ⟨?_, rfl, mem_addColName.mpr (Or.inl (mem_addColName.mpr (Or.inr rfl))),
      mem_addColName.mpr (Or.inr rfl), rfl⟩
    simp only [calculate_gex]
    rw [if_neg (by simp [hne, hG, hO])]
    split <;> rfl
  · simp only [calculate_vega_exposure]
    split
    · exact ⟨df, rfl, rfl, fun a h => h⟩
    · split
      · exact ⟨df, rfl, rfl, fun a h => h⟩
      · split
        · exact ⟨vegaMutate df, rfl, vegaMutate_base df, vegaMutate_cols_subset df⟩
        · exact ⟨vegaMutate df, rfl, vegaMutate_base df, vegaMutate_cols_subset df⟩
  · intro hV hO
    refine ⟨?_, rfl, mem_addColName.mpr (Or.inr rfl), rfl⟩
    simp only [calculate_vega_exposure]
    rw [if_neg (by simp [hV]), if_neg (by simp [hO])]
    split <;> rfl
  · simp only [calculate_theta_exposure]
    split
    · exact ⟨df, rfl, rfl, fun a h => h⟩
    · split
      · exact ⟨df, rfl, rfl, fun a h => h⟩
      · split
        · exact ⟨thetaMutate df, rfl, thetaMutate_base df, thetaMutate_cols_subset df⟩
        · exact ⟨thetaMutate df, rfl, thetaMutate_base df, thetaMutate_cols_subset df⟩
  · intro hTh hO
    refine ⟨?_, rfl, mem_addColName.mpr (Or.inr rfl), rfl⟩
    simp only [calculate_theta_exposure]
    rw [if_neg (by simp [hTh]), if_neg (by simp [hO])]
    split <;> rfl

/-- C4 amended, evaluated on the one-row example table: the money-at-risk
post-state is exactly the input table with `MidPriceFilled` and
`MoneyAtRisk` materialized in place, and the derived column is present in
the post-state's column list. -/
theorem metric_engine_mutation_amended_witness :
    (calculate_money_at_risk (some marExampleDf)).1 = some (moneyMutate marExampleDf) ∧
    "MoneyAtRisk" ∈ (moneyMutate marExampleDf).cols := by
  have h := (metric_engine_mutation_amended marExampleDf (by decide)
    (by decide)).2.2.2.2.2.1 (by decide) (by decide) (by decide)
  exact ⟨h.1, h.2.2.2.1⟩

/-! ## C5 and C10: put/call ratios -/

theorem pcRatiosOf_eq (grows : List Row) :
    pcRatiosOf grows =
      (if typeSum grows "call" Row.volume > 0
        then some (typeSum grows "put" Row.volume / typeSum grows "call" Row.volume)
        else none,
       if typeSum grows "call" Row.openInterest > 0
        then some (typeSum grows "put" Row.openInterest / typeSum grows "call" Row.openInterest)
        else none) := rfl

theorem typeSum_addTotal (rows : List Row) (val : Row → Option ℚ) (t : String)
    (hval : ∀ r, val { r with total := some "Total" } = val r) :
    typeSum (rows.map (fun r => { r with total := some "Total" })) t val =
      typeSum rows t val := by
  unfold typeSum
  rw [List.filter_map, List.map_map]
  apply congrArg nansum
  have h1 : rows.filter ((fun r => decide (r.type = some t)) ∘
        (fun r => ({ r with total := some "Total" } : Row))) =
      rows.filter (fun r => decide (r.type = some t)) :=
    filter_congr_local rows (fun r _ => rfl)
  rw [h1]
  exact List.map_congr_left (fun r _ => hval r)

theorem pcRatiosOf_addTotal (rows : List Row) :
    pcRatiosOf (rows.map (fun r => { r with total := some "Total" })) = pcRatiosOf rows := by
  rw [pcRatiosOf_eq, pcRatiosOf_eq,
    typeSum_addTotal rows Row.volume "call" (fun r => rfl),
    typeSum_addTotal rows Row.volume "put" (fun r => rfl),
    typeSum_addTotal rows Row.openInterest "call" (fun r => rfl),
    typeSum_addTotal rows Row.openInterest "put" (fun r => rfl)]

/-- Every output row of `calculate_put_call_ratio` carries exactly the
ratios of its group. -/
theorem pcr_out_ratios (df : DataFrame) (b : Bool)
    (out : List (GroupKey × Option ℚ × Option ℚ))
    (hok : (calculate_put_call_ratios (some df) b).2 = .ok out) :
    ∀ e ∈ out, e.2 = pcRatiosOf (groupRows df e.1) := by
  cases b with
  | true =>
    simp only [calculate_put_call_ratios] at hok
    split at hok
    · simp only [Except.ok.injEq] at hok
      subst hok
      intro e he
      exact absurd he (List.not_mem_nil e)
    · split at hok
      · simp at hok
      · split at hok
        · simp only [Except.ok.injEq] at hok
          subst hok
          intro e he
          exact absurd he (List.not_mem_nil e)
        · split at hok
          · simp at hok
          · split at hok
            · simp at hok
            · split at hok
              · simp at hok
              · simp only [Except.ok.injEq] at hok
                subst hok
                intro e he
                rw [List.mem_map] at he
                obtain ⟨k, hk, rfl⟩ := he
                rfl
  | false =>
    simp only [calculate_put_call_ratios] at hok
    split at hok
    · simp only [Except.ok.injEq] at hok
      subst hok
      intro e he
      exact absurd he (List.not_mem_nil e)
    · split at hok
      · simp at hok
      · split at hok
        · simp at hok
        · split at hok
          · simp at hok
          · simp only [Except.ok.injEq] at hok
            subst hok
            intro e he
            rw [List.mem_singleton] at he
            subst he
            show pcRatiosOf (addTotal df).rows = pcRatiosOf df.rows
            exact pcRatiosOf_addTotal df.rows

theorem pcRatiosOf_vol_none (grows : List Row)
    (h : typeSum grows "call" Row.volume = 0) : (pcRatiosOf grows).1 = none := by
  rw [pcRatiosOf_eq]
  dsimp only
  rw [h, if_neg (lt_irrefl 0)]

theorem pcRatiosOf_oi_none (grows : List Row)
    (h : typeSum grows "call" Row.openInterest = 0) : (pcRatiosOf grows).2 = none := by
  rw [pcRatiosOf_eq]
  dsimp only
  rw [h, if_neg (lt_irrefl 0)]

/-- C5: in every group formed by `calculate_put_call_ratio` (per-strike or
the single Total group), a zero summed call-side Volume (resp.
OpenInterest) makes the corresponding ratio the missing value, never zero,
infinity or an error; null or empty input yields an empty result without
failing. -/
theorem pcr_zero_call_denominator (df : DataFrame) (b : Bool)
    (out : List (GroupKey × Option ℚ × Option ℚ))
    (hok : (calculate_put_call_ratios (some df) b).2 = .ok out) :
    (∀ e ∈ out,
      (typeSum (groupRows df e.1) "call" Row.volume = 0 → e.2.1 = none) ∧
      (typeSum (groupRows df e.1) "call" Row.openInterest = 0 → e.2.2 = none)) ∧
    (calculate_put_call_ratios none b).2 = .ok [] ∧
    (∀ df2 : DataFrame, df2.rows.isEmpty = true →
      (calculate_put_call_ratios (some df2) b).2 = .ok []) := by
  refine ⟨?_, by cases b <;> rfl, ?_⟩
  · intro e he
    have hr := pcr_out_ratios df b out hok e he
    constructor
    · intro h0
      rw [hr]
      exact pcRatiosOf_vol_none _ h0
    · intro h0
      rw [hr]
      exact pcRatiosOf_oi_none _ h0
  · intro df2 h2
    cases b <;> · simp only [calculate_put_call_ratios]
                  rw [if_pos h2]

/-- A group with one zero-volume zero-OI call row and one put row: both
call-side denominators are zero. -/
def dfPC5 : DataFrame :=
  { cols := ["Strike", "Type", "Volume", "OpenInterest"],
    rows := [{ strike := some 100, type := some "call", volume := some 0, openInterest := some 0 },
             { strike := some 100, type := some "put", volume := some 50, openInterest := some 7 }] }

/-- C5, evaluated: on `dfPC5` both ratios of the single group come out
missing. -/
theorem pcr_zero_call_denominator_witness :
    ((GroupKey.strikeKey (100 : ℚ), ((none : Option ℚ), (none : Option ℚ))).2.1 = none) ∧
    ((GroupKey.strikeKey (100 : ℚ), ((none : Option ℚ), (none : Option ℚ))).2.2 = none) := by
  have hok : (calculate_put_call_ratios (some dfPC5) true).2 =
      .ok [(GroupKey.strikeKey 100, (none, none))] := by
    simp [calculate_put_call_ratios, dfPC5, sortedStrikes, pcRatiosOf, nansum,
      List.insertionSort, List.orderedInsert, List.dedup, List.filterMap, List.filter]
  have hmem : (GroupKey.strikeKey (100 : ℚ), ((none : Option ℚ), (none : Option ℚ))) ∈
      [(GroupKey.strikeKey (100 : ℚ), ((none : Option ℚ), (none : Option ℚ)))] := by simp
  have h0v : typeSum (groupRows dfPC5 (GroupKey.strikeKey 100)) "call" Row.volume = 0 := by
    simp [typeSum, groupRows, dfPC5, nansum, List.filter]
  have h0o : typeSum (groupRows dfPC5 (GroupKey.strikeKey 100)) "call" Row.openInterest = 0 := by
    simp [typeSum, groupRows, dfPC5, nansum, List.filter]
  exact ⟨((pcr_zero_call_denominator dfPC5 true _ hok).1 _ hmem).1 h0v,
         ((pcr_zero_call_denominator dfPC5 true _ hok).1 _ hmem).2 h0o⟩

theorem typeSum_eq_filterMap (grows : List Row) (t : String) (val : Row → Option ℚ) :
    typeSum grows t val =
      (((grows.filter (fun r => r.type = some t)).map val).filterMap id).sum := by
  unfold typeSum
  exact nansum_eq_filterMap_sum _

/-- C10: the per-group Volume / OpenInterest sums of
`calculate_put_call_ratio` skip missing values — each ratio is computed
from sums over only the non-missing entries, a group whose call rows all
have missing Volume gets a missing ratio, and a positive call-side sum
always produces a real (non-missing) ratio. -/
theorem pcr_nan_skipping (df : DataFrame) (b : Bool)
    (out : List (GroupKey × Option ℚ × Option ℚ))
    (hok : (calculate_put_call_ratios (some df) b).2 = .ok out) :
    ∀ e ∈ out,
      (e.2.1 = if 0 < ((((groupRows df e.1).filter (fun r => r.type = some "call")).map
            Row.volume).filterMap id).sum
        then some (((((groupRows df e.1).filter (fun r => r.type = some "put")).map
            Row.volume).filterMap id).sum /
          ((((groupRows df e.1).filter (fun r => r.type = some "call")).map
            Row.volume).filterMap id).sum)
        else none) ∧
      (e.2.2 = if 0 < ((((groupRows df e.1).filter (fun r => r.type = some "call")).map
            Row.openInterest).filterMap id).sum
        then some (((((groupRows df e.1).filter (fun r => r.type = some "put")).map
            Row.openInterest).filterMap id).sum /
          ((((groupRows df e.1).filter (fun r => r.type = some "call")).map
            Row.openInterest).filterMap id).sum)
        else none) ∧
      ((∀ r ∈ (groupRows df e.1).filter (fun r => r.type = some "call"), r.volume = none) →
        e.2.1 = none) ∧
      (0 < ((((groupRows df e.1).filter (fun r => r.type = some "call")).map
          Row.volume).filterMap id).sum → ∃ q, e.2.1 = some q) := by
  intro e he
  have hr := pcr_out_ratios df b out hok e he
  have h1 : e.2.1 = if 0 < ((((groupRows df e.1).filter (fun r => r.type = some "call")).map
        Row.volume).filterMap id).sum
      then some (((((groupRows df e.1).filter (fun r => r.type = some "put")).map
          Row.volume).filterMap id).sum /
        ((((groupRows df e.1).filter (fun r => r.type = some "call")).map
          Row.volume).filterMap id).sum)
      else none := by
    rw [hr, pcRatiosOf_eq]
    dsimp only
    rw [typeSum_eq_filterMap, typeSum_eq_filterMap]
  have h2 : e.2.2 = if 0 < ((((groupRows df e.1).filter (fun r => r.type = some "call")).map
        Row.openInterest).filterMap id).sum
      then some (((((groupRows df e.1).filter (fun r => r.type = some "put")).map
          Row.openInterest).filterMap id).sum /
        ((((groupRows df e.1).filter (fun r => r.type = some "call")).map
          Row.openInterest).filterMap id).sum)
      else none := by
    rw [hr, pcRatiosOf_eq]
    dsimp only
    rw [typeSum_eq_filterMap, typeSum_eq_filterMap]
  refine ⟨h1, h2, ?_, ?_⟩
  · intro hmiss
    have hnil : (((groupRows df e.1).filter (fun r => r.type = some "call")).map
        Row.volume).filterMap id = [] := by
      rw [List.filterMap_map]
      exact List.filterMap_eq_nil_iff.mpr (fun r hrr => hmiss r hrr)
    rw [h1, hnil]
    simp
  · intro hpos
    rw [h1, if_pos hpos]
    exact ⟨_, rfl⟩

/-- A group whose single call row has missing Volume but positive
OpenInterest, with one put row. -/
def dfPC10 : DataFrame :=
  { cols := ["Strike", "Type", "Volume", "OpenInterest"],
    rows := [{ strike := some 100, type := some "call", volume := none, openInterest := some 3 },
             { strike := some 100, type := some "put", volume := some 50, openInterest := some 6 }] }

/-- C10, evaluated: on `dfPC10` the all-missing call Volume yields a
missing volume ratio while the positive OpenInterest denominator yields a
real OI ratio. -/
theorem pcr_nan_skipping_witness :
    ((GroupKey.strikeKey (100 : ℚ), ((none : Option ℚ), some (2 : ℚ))).2.1 = none) ∧
    (∃ q, (GroupKey.strikeKey (100 : ℚ), ((none : Option ℚ), some (2 : ℚ))).2.2 = some q) := by
  have hok : (calculate_put_call_ratios (some dfPC10) true).2 =
      .ok [(GroupKey.strikeKey 100, (none, some 2))] := by
    simp [calculate_put_call_ratios, dfPC10, sortedStrikes, pcRatiosOf, nansum,
      List.insertionSort, List.orderedInsert, List.dedup, List.filterMap, List.filter]
    norm_num
  have hmem : (GroupKey.strikeKey (100 : ℚ), ((none : Option ℚ), some (2 : ℚ))) ∈
      [(GroupKey.strikeKey (100 : ℚ), ((none : Option ℚ), some (2 : ℚ)))] := by simp
  have hmiss : ∀ r ∈ (groupRows dfPC10 (GroupKey.strikeKey 100)).filter
      (fun r => r.type = some "call"), r.volume = none := by
    decide
  have hpos : 0 < ((((groupRows dfPC10 (GroupKey.strikeKey 100)).filter
      (fun r => r.type = some "call")).map Row.openInterest).filterMap id).sum := by
    norm_num [groupRows, dfPC10, List.filter, List.filterMap]
  refine ⟨((pcr_nan_skipping dfPC10 true _ hok) _ hmem).2.2.1 hmiss, ?_⟩
  have h2 := ((pcr_nan_skipping dfPC10 true _ hok) _ hmem).2.1
  rw [if_pos hpos] at h2
  exact ⟨_, h2⟩

/-! ## C7: money at risk -/

theorem groupSumBy_moneyMutate (df : DataFrame) :
    groupSumBy (moneyMutate df).rows Row.moneyAtRisk =
      (sortedStrikes df.rows).map (fun k => (k, nansum ((df.rows.filter
        (fun r => r.strike = some k)).map
        (fun r => r.openInterest.map (fun oi => oi * r.midPrice.getD 0 * 100))))) :=
  groupSumBy_map df.rows _ Row.moneyAtRisk (fun _ => rfl)

/-- C7: `calculate_money_at_risk` sums `OpenInterest * MidPrice-or-zero *
100` per distinct strike (missing `MidPrice` counts as 0 for this
calculation only), and on the one-row example with OI 10, Bid 1.0,
Ask 1.2 the loader's mid price is 1.1 and the money at risk is 1100. -/
theorem money_at_risk_spec (df : DataFrame)
    (hS : "Strike" ∈ df.cols) (hO : "OpenInterest" ∈ df.cols) (hM : "MidPrice" ∈ df.cols)
    (hwf : ∀ r ∈ df.rows, r.strike.isSome ∧ r.openInterest.isSome) :
    (∃ out, (calculate_money_at_risk (some df)).2 = .ok out ∧
      out.map (fun p => p.1) = sortedStrikes df.rows ∧
      ∀ p ∈ out, p.2 = ((df.rows.filter (fun r => r.strike = some p.1)).map
        (fun r => r.openInterest.getD 0 * r.midPrice.getD 0 * 100)).sum) ∧
    midPriceOf (some 1) (some (1.2 : ℚ)) = some (1.1 : ℚ) ∧
    (calculate_money_at_risk (some marExampleDf)).2 = .ok [(100, 1100)] := by
  refine ⟨?_, ?_, ?_⟩
  · simp only [calculate_money_at_risk]
    by_cases hemp : df.rows.isEmpty = true
    · rw [if_pos (by rw [hemp]; rfl)]
      refine ⟨[], rfl, ?_, by intro p hp; exact absurd hp (List.not_mem_nil p)⟩
      rw [List.isEmpty_iff.mp hemp]
      rfl
    · rw [if_neg (by simp [hemp, hO, hM]), if_neg (by simp [moneyMutate_cols_subset df hS])]
      refine ⟨_, rfl, ?_, ?_⟩
      · rw [groupSumBy_moneyMutate, List.map_map]
        exact List.map_id' _
      · intro p hp
        rw [groupSumBy_moneyMutate] at hp
        rw [List.mem_map] at hp
        obtain ⟨k, hk, rfl⟩ := hp
        refine nansum_map_eq_sum _ _ _ ?_
        intro r hr
        obtain ⟨o, ho⟩ := Option.isSome_iff_exists.mp
          (hwf r (List.mem_of_mem_filter hr)).2
        rw [ho]
        rfl
  · norm_num [midPriceOf]
  · simp [calculate_money_at_risk, marExampleDf, moneyMutate, addColName, groupSumBy,
      sortedStrikes, nansum, List.insertionSort, List.orderedInsert, List.dedup,
      List.filterMap, List.filter]
    norm_num

/-- C7, evaluated at the example table. -/
theorem money_at_risk_spec_witness :
    (calculate_money_at_risk (some marExampleDf)).2 = .ok [(100, 1100)] :=
  (money_at_risk_spec marExampleDf (by decide) (by decide) (by decide) (by decide)).2.2

/-! ## C1: max pain -/

theorem cashValueAt_eq_specValue (rows : List Row)
    (hwf : ∀ r ∈ rows, r.strike.isSome ∧ r.openInterest.isSome) (k : ℚ) :
    cashValueAt rows k = specValue rows k := by
  unfold cashValueAt specValue
  dsimp only
  congr 1
  congr 1
  · refine nansum_map_eq_sum _ _ _ ?_
    intro r hr
    obtain ⟨s, hs⟩ := Option.isSome_iff_exists.mp (hwf r (List.mem_of_mem_filter hr)).1
    obtain ⟨o, ho⟩ := Option.isSome_iff_exists.mp (hwf r (List.mem_of_mem_filter hr)).2
    rw [hs, ho]
    rfl
  · refine nansum_map_eq_sum _ _ _ ?_
    intro r hr
    obtain ⟨s, hs⟩ := Option.isSome_iff_exists.mp (hwf r (List.mem_of_mem_filter hr)).1
    obtain ⟨o, ho⟩ := Option.isSome_iff_exists.mp (hwf r (List.mem_of_mem_filter hr)).2
    rw [hs, ho]
    rfl

/-- C1: for non-empty input whose rows have non-null Strike, Type and
OpenInterest, `calculate_max_pain` returns an observed strike K minimizing
value(K) = Σ_calls max(0, K − S_i) OI_i + Σ_puts max(0, S_i − K) OI_i
(times 100), breaking ties towards the first minimal strike in ascending
order; null or empty input gives null. -/
theorem max_pain_minimizes (df : DataFrame) (hne : df.rows ≠ [])
    (hS : "Strike" ∈ df.cols) (hT : "Type" ∈ df.cols) (hO : "OpenInterest" ∈ df.cols)
    (hwf : ∀ r ∈ df.rows, r.strike.isSome ∧ r.type.isSome ∧ r.openInterest.isSome) :
    (∃ k, (calculate_max_pain (some df)).2 = .ok (some k) ∧
      (∃ r ∈ df.rows, r.strike = some k) ∧
      (∀ k2, (∃ r ∈ df.rows, r.strike = some k2) →
        specValue df.rows k ≤ specValue df.rows k2) ∧
      (∀ k2, (∃ r ∈ df.rows, r.strike = some k2) → k2 < k →
        specValue df.rows k < specValue df.rows k2)) ∧
    (calculate_max_pain none).2 = .ok none ∧
    (∀ df2 : DataFrame, df2.rows = [] → (calculate_max_pain (some df2)).2 = .ok none) := by
  have hwf2 : ∀ r ∈ df.rows, r.strike.isSome ∧ r.openInterest.isSome :=
    fun r hr => ⟨(hwf r hr).1, (hwf r hr).2.2⟩
  refine ⟨?_, rfl, ?_⟩
  · obtain ⟨r0, hr0⟩ := List.exists_mem_of_ne_nil df.rows hne
    obtain ⟨s0, hs0⟩ := Option.isSome_iff_exists.mp (hwf r0 hr0).1
    have hsne : sortedStrikes df.rows ≠ [] := sortedStrikes_ne_nil hr0 hs0
    have hdne : (sortedStrikes df.rows).map
        (fun k => (k, cashValueAt df.rows k)) ≠ [] := by
      intro h
      exact hsne (List.map_eq_nil_iff.mp h)
    obtain ⟨p, hp, hpmem, hpmin⟩ := firstMinBy_spec (fun p => p.2) _ hdne
    have hpair : ((sortedStrikes df.rows).map
        (fun k => (k, cashValueAt df.rows k))).Pairwise (fun a b => a.1 < b.1) :=
      List.pairwise_map.mpr (sortedStrikes_sorted df.rows)
    have hfirst := firstMinBy_first (fun p => p.2) _ hpair hp
    obtain ⟨k, hk, hpk⟩ := List.mem_map.mp hpmem
    refine ⟨p.1, ?_, ?_, ?_, ?_⟩
    · simp only [calculate_max_pain]
      rw [if_neg (by simp [hne]), if_neg (by simp [hS]), if_neg (by simp [hsne]),
        if_neg (by simp [hT]), if_neg (by simp [hO]), hp]
      rfl
    · rw [← hpk]
      exact mem_sortedStrikes.mp hk
    · intro k2 hk2
      have hmem2 : (k2, cashValueAt df.rows k2) ∈ (sortedStrikes df.rows).map
          (fun k => (k, cashValueAt df.rows k)) :=
        List.mem_map_of_mem _ (mem_sortedStrikes.mpr hk2)
      have := hpmin _ hmem2
      rw [← hpk] at this ⊢
      calc specValue df.rows k = cashValueAt df.rows k :=
            (cashValueAt_eq_specValue df.rows hwf2 k).symm
        _ ≤ cashValueAt df.rows k2 := this
        _ = specValue df.rows k2 := cashValueAt_eq_specValue df.rows hwf2 k2
    · intro k2 hk2 hlt
      have hmem2 : (k2, cashValueAt df.rows k2) ∈ (sortedStrikes df.rows).map
          (fun k => (k, cashValueAt df.rows k)) :=
        List.mem_map_of_mem _ (mem_sortedStrikes.mpr hk2)
      have hvp := hfirst _ hmem2 hlt
      rw [← hpk] at hvp ⊢
      calc specValue df.rows k = cashValueAt df.rows k :=
            (cashValueAt_eq_specValue df.rows hwf2 k).symm
        _ < cashValueAt df.rows k2 := hvp
        _ = specValue df.rows k2 := cashValueAt_eq_specValue df.rows hwf2 k2
  · intro df2 h2
    simp only [calculate_max_pain]
    rw [if_pos (List.isEmpty_iff.mpr h2)]

/-- The two-strike chain of the specification's max-pain test: 100 call
OI at strike 90 and 100 put OI at strike 110. -/
def dfMaxPain : DataFrame :=
  { cols := ["Strike", "Type", "OpenInterest"],
    rows := [{ strike := some 90, type := some "call", openInterest := some 100 },
             { strike := some 110, type := some "put", openInterest := some 100 }] }

/-- C1, evaluated at the two-strike chain (the tie at value 200000 is
broken towards the lower strike 90). -/
theorem max_pain_minimizes_witness :
    (∃ k, (calculate_max_pain (some dfMaxPain)).2 = .ok (some k) ∧
      (∃ r ∈ dfMaxPain.rows, r.strike = some k) ∧
      (∀ k2, (∃ r ∈ dfMaxPain.rows, r.strike = some k2) →
        specValue dfMaxPain.rows k ≤ specValue dfMaxPain.rows k2) ∧
      (∀ k2, (∃ r ∈ dfMaxPain.rows, r.strike = some k2) → k2 < k →
        specValue dfMaxPain.rows k < specValue dfMaxPain.rows k2)) ∧
    (calculate_max_pain none).2 = .ok none ∧
    (∀ df2 : DataFrame, df2.rows = [] → (calculate_max_pain (some df2)).2 = .ok none) :=
  max_pain_minimizes dfMaxPain (by decide) (by decide) (by decide) (by decide) (by decide)

/-! ## C2 and C3: dealer gamma exposure -/

/-- The per-strike DealerGEX table (before the cumulative column). -/
def gexPerStrike (df : DataFrame) : List (ℚ × ℚ) :=
  groupSumBy (gexMutate df).rows Row.dealerGEX

theorem gex_groupSum_eq (df : DataFrame) :
    groupSumBy (gexMutate df).rows Row.dealerGEX =
      (sortedStrikes df.rows).map (fun k =>
        (k, nansum ((df.rows.filter (fun r => r.strike = some k)).map
          (fun r => r.gamma.bind (fun g => r.openInterest.map (fun oi => -g * oi * 100)))))) :=
  groupSumBy_map df.rows _ Row.dealerGEX (fun _ => rfl)

theorem gammaFlipOf_spec (per : List (ℚ × ℚ)) :
    (per = [] → gammaFlipOf per = none) ∧
    (per ≠ [] → ∃ p, p ∈ per ∧ gammaFlipOf per = some p.1 ∧
      ∀ q ∈ per, |p.2| ≤ |q.2|) := by
  constructor
  · intro h
    subst h
    rfl
  · intro h
    obtain ⟨p, hp, hmem, hmin⟩ := firstMinBy_spec (fun p => |p.2|) per h
    refine ⟨p, hmem, ?_, hmin⟩
    unfold gammaFlipOf
    dsimp only
    rw [hp]
    split
    · rename_i k hk
      split at hk
      · simp only [Option.map_some'] at hk
        exact hk.symm
      · simp at hk
    · rw [if_neg (by simp [List.isEmpty_iff, h])]
      rfl

theorem map_fst_pair {α : Type _} (l : List ℚ) (f : ℚ → α) :
    (l.map (fun k => (k, f k))).map (fun q => q.1) = l := by
  rw [List.map_map]
  exact List.map_id' l

/-- C2: the gamma-flip strike returned by `calculate_gex` follows the
three-rule policy: with both positive and negative per-strike DealerGEX
present it is a strike of minimal absolute DealerGEX among all strikes;
for any non-empty per-strike table it is a strike of minimal absolute
DealerGEX; and for null or empty input it is null. -/
theorem gex_flip_policy (df : DataFrame)
    (hS : "Strike" ∈ df.cols) (hG : "Gamma" ∈ df.cols) (hO : "OpenInterest" ∈ df.cols)
    (hne : df.rows ≠ []) :
    (∃ tbl flip, (calculate_gex (some df)).2 = .ok (tbl, flip) ∧
      tbl.map (fun p => (p.1, p.2.1)) = gexPerStrike df ∧
      ((∃ p ∈ gexPerStrike df, 0 < p.2) → (∃ p ∈ gexPerStrike df, p.2 < 0) →
        ∃ p, p ∈ gexPerStrike df ∧ flip = some p.1 ∧
          ∀ q ∈ gexPerStrike df, |p.2| ≤ |q.2|) ∧
      (gexPerStrike df ≠ [] →
        ∃ p, p ∈ gexPerStrike df ∧ flip = some p.1 ∧
          ∀ q ∈ gexPerStrike df, |p.2| ≤ |q.2|) ∧
      (gexPerStrike df = [] → flip = none)) ∧
    (calculate_gex none).2 = .ok ([], none) ∧
    (∀ df2 : DataFrame, df2.rows = [] →
      (calculate_gex (some df2)).2 = .ok ([], none)) := by
  refine ⟨?_, rfl, ?_⟩
  · simp only [calculate_gex]
    rw [if_neg (by simp [List.isEmpty_iff, hne, hG, hO]),
      if_neg (by simp [gexMutate_cols_subset df hS])]
    refine ⟨_, _, rfl, cumsumAux_proj 0 _, ?_, (gammaFlipOf_spec _).2, (gammaFlipOf_spec _).1⟩
    intro hpos _
    obtain ⟨p, hp, _⟩ := hpos
    exact (gammaFlipOf_spec _).2 (List.ne_nil_of_mem hp)
  · intro df2 h2
    simp only [calculate_gex]
    rw [if_pos (by simp [h2])]

/-- A two-strike chain: dealer GEX −200 at strike 90 and +100 at
strike 110, so the flip is 110 (smaller absolute GEX). -/
def dfGex : DataFrame :=
  { cols := ["Strike", "Gamma", "OpenInterest"],
    rows := [{ strike := some 90, gamma := some 2, openInterest := some 1 },
             { strike := some 110, gamma := some (-1), openInterest := some 1 }] }

/-- C2, evaluated at the two-strike chain. -/
theorem gex_flip_policy_witness :
    (∃ tbl flip, (calculate_gex (some dfGex)).2 = .ok (tbl, flip) ∧
      tbl.map (fun p => (p.1, p.2.1)) = gexPerStrike dfGex ∧
      ((∃ p ∈ gexPerStrike dfGex, 0 < p.2) → (∃ p ∈ gexPerStrike dfGex, p.2 < 0) →
        ∃ p, p ∈ gexPerStrike dfGex ∧ flip = some p.1 ∧
          ∀ q ∈ gexPerStrike dfGex, |p.2| ≤ |q.2|) ∧
      (gexPerStrike dfGex ≠ [] →
        ∃ p, p ∈ gexPerStrike dfGex ∧ flip = some p.1 ∧
          ∀ q ∈ gexPerStrike dfGex, |p.2| ≤ |q.2|) ∧
      (gexPerStrike dfGex = [] → flip = none)) ∧
    (calculate_gex none).2 = .ok ([], none) ∧
    (∀ df2 : DataFrame, df2.rows = [] →
      (calculate_gex (some df2)).2 = .ok ([], none)) :=
  gex_flip_policy dfGex (by decide) (by decide) (by decide) (by decide)

/-- C3: the per-strike table of `calculate_gex` has
DealerGEX(K) = Σ over K's rows of −Gamma·OI·100 (calls and puts both
contribute), its rows sorted ascending by strike, and
CumulativeDealerGEX the running sum of DealerGEX in that order. -/
theorem gex_table_spec (df : DataFrame)
    (hS : "Strike" ∈ df.cols) (hG : "Gamma" ∈ df.cols) (hO : "OpenInterest" ∈ df.cols)
    (hwf : ∀ r ∈ df.rows, r.strike.isSome ∧ r.gamma.isSome ∧ r.openInterest.isSome) :
    ∃ tbl flip, (calculate_gex (some df)).2 = .ok (tbl, flip) ∧
      (∀ p ∈ tbl, p.2.1 = ((df.rows.filter (fun r => r.strike = some p.1)).map
        (fun r => -r.gamma.getD 0 * r.openInterest.getD 0 * 100)).sum) ∧
      ((tbl.map (fun p => p.1)).Sorted (· < ·)) ∧
      (∀ (i : ℕ) (h : i < tbl.length),
        (tbl.get ⟨i, h⟩).2.2 = ((tbl.map (fun p => p.2.1)).take (i + 1)).sum) := by
  by_cases hemp : df.rows.isEmpty = true
  · refine ⟨[], none, ?_, ?_, List.sorted_nil, ?_⟩
    · simp only [calculate_gex]
      rw [if_pos (by simp [hemp])]
    · intro p hp
      exact absurd hp (List.not_mem_nil p)
    · intro i h
      exact absurd h (by simp)
  · simp only [calculate_gex]
    rw [if_neg (by simp [hemp, hG, hO]),
      if_neg (by simp [gexMutate_cols_subset df hS])]
    refine ⟨_, _, rfl, ?_, ?_, ?_⟩
    · intro p hp
      have hmem : (p.1, p.2.1) ∈ groupSumBy (gexMutate df).rows Row.dealerGEX := by
        rw [← cumsumAux_proj 0 (groupSumBy (gexMutate df).rows Row.dealerGEX)]
        exact List.mem_map_of_mem _ hp
      rw [gex_groupSum_eq] at hmem
      rw [List.mem_map] at hmem
      obtain ⟨k, hk, heq⟩ := hmem
      have hk1 : k = p.1 := congrArg Prod.fst heq
      have hv : nansum ((df.rows.filter (fun r => r.strike = some k)).map
          (fun r => r.gamma.bind (fun g => r.openInterest.map (fun oi => -g * oi * 100)))) =
          p.2.1 := congrArg Prod.snd heq
      subst hk1
      rw [← hv]
      refine nansum_map_eq_sum _ _ _ ?_
      intro r hr
      obtain ⟨g, hg⟩ := Option.isSome_iff_exists.mp
        (hwf r (List.mem_of_mem_filter hr)).2.1
      obtain ⟨o, ho⟩ := Option.isSome_iff_exists.mp
        (hwf r (List.mem_of_mem_filter hr)).2.2
      rw [hg, ho]
      rfl
    · have heq : (cumsumAux 0 (groupSumBy (gexMutate df).rows Row.dealerGEX)).map
          (fun p => p.1) =
          (groupSumBy (gexMutate df).rows Row.dealerGEX).map (fun q => q.1) := by
        conv_rhs => rw [← cumsumAux_proj 0 (groupSumBy (gexMutate df).rows Row.dealerGEX),
          List.map_map]
        rfl
      rw [heq, gex_groupSum_eq, map_fst_pair]
      exact sortedStrikes_sorted df.rows
    · intro i h
      rw [cumsumAux_cum]
      have h2 : (groupSumBy (gexMutate df).rows Row.dealerGEX).map (fun p => p.2) =
          (cumsumAux 0 (groupSumBy (gexMutate df).rows Row.dealerGEX)).map
            (fun p => p.2.1) := by
        conv_lhs => rw [← cumsumAux_proj 0 (groupSumBy (gexMutate df).rows Row.dealerGEX),
          List.map_map]
        rfl
      rw [h2, zero_add]

/-- C3, evaluated at the two-strike chain. -/
theorem gex_table_spec_witness :
    ∃ tbl flip, (calculate_gex (some dfGex)).2 = .ok (tbl, flip) ∧
      (∀ p ∈ tbl, p.2.1 = ((dfGex.rows.filter (fun r => r.strike = some p.1)).map
        (fun r => -r.gamma.getD 0 * r.openInterest.getD 0 * 100)).sum) ∧
      ((tbl.map (fun p => p.1)).Sorted (· < ·)) ∧
      (∀ (i : ℕ) (h : i < tbl.length),
        (tbl.get ⟨i, h⟩).2.2 = ((tbl.map (fun p => p.2.1)).take (i + 1)).sum) :=
  gex_table_spec dfGex (by decide) (by decide) (by decide) (by decide)

/-! ## C9: idempotence of the metric engine -/

theorem contains_of_mem {cs : List String} {c : String} (h : c ∈ cs) :
    cs.contains c = true :=
  (contains_iff_mem cs c).mpr h

theorem moneyMutate_idem (df : DataFrame) :
    moneyMutate (moneyMutate df) = moneyMutate df := by
  show DataFrame.mk _ _ = DataFrame.mk _ _
  rw [DataFrame.mk.injEq]
  constructor
  · show addColName (addColName (addColName (addColName df.cols "MidPriceFilled")
        "MoneyAtRisk") "MidPriceFilled") "MoneyAtRisk" =
      addColName (addColName df.cols "MidPriceFilled") "MoneyAtRisk"
    have hm1 : "MidPriceFilled" ∈
        addColName (addColName df.cols "MidPriceFilled") "MoneyAtRisk" :=
      mem_addColName.mpr (Or.inl (mem_addColName.mpr (Or.inr rfl)))
    have hm2 : "MoneyAtRisk" ∈
        addColName (addColName df.cols "MidPriceFilled") "MoneyAtRisk" :=
      mem_addColName.mpr (Or.inr rfl)
    rw [addColName_of_mem hm1, addColName_of_mem hm2]
  · show ((df.rows.map _).map _) = df.rows.map _
    rw [List.map_map]
    rfl

theorem gexMutate_idem (df : DataFrame) :
    gexMutate (gexMutate df) = gexMutate df := by
  show DataFrame.mk _ _ = DataFrame.mk _ _
  rw [DataFrame.mk.injEq]
  constructor
  · show addColName (addColName (addColName (addColName df.cols "GEX_ind")
        "DealerGEX") "GEX_ind") "DealerGEX" =
      addColName (addColName df.cols "GEX_ind") "DealerGEX"
    have hm1 : "GEX_ind" ∈ addColName (addColName df.cols "GEX_ind") "DealerGEX" :=
      mem_addColName.mpr (Or.inl (mem_addColName.mpr (Or.inr rfl)))
    have hm2 : "DealerGEX" ∈ addColName (addColName df.cols "GEX_ind") "DealerGEX" :=
      mem_addColName.mpr (Or.inr rfl)
    rw [addColName_of_mem hm1, addColName_of_mem hm2]
  · show ((df.rows.map _).map _) = df.rows.map _
    rw [List.map_map]
    rfl

theorem vegaMutate_idem (df : DataFrame) :
    vegaMutate (vegaMutate df) = vegaMutate df := by
  show DataFrame.mk _ _ = DataFrame.mk _ _
  rw [DataFrame.mk.injEq]
  constructor
  · show addColName (addColName df.cols "DealerVegaExposure") "DealerVegaExposure" =
      addColName df.cols "DealerVegaExposure"
    have hm : "DealerVegaExposure" ∈ addColName df.cols "DealerVegaExposure" :=
      mem_addColName.mpr (Or.inr rfl)
    rw [addColName_of_mem hm]
  · show ((df.rows.map _).map _) = df.rows.map _
    rw [List.map_map]
    rfl

theorem thetaMutate_idem (df : DataFrame) :
    thetaMutate (thetaMutate df) = thetaMutate df := by
  show DataFrame.mk _ _ = DataFrame.mk _ _
  rw [DataFrame.mk.injEq]
  constructor
  · show addColName (addColName df.cols "DealerThetaExposure") "DealerThetaExposure" =
      addColName df.cols "DealerThetaExposure"
    have hm : "DealerThetaExposure" ∈ addColName df.cols "DealerThetaExposure" :=
      mem_addColName.mpr (Or.inr rfl)
    rw [addColName_of_mem hm]
  · show ((df.rows.map _).map _) = df.rows.map _
    rw [List.map_map]
    rfl

theorem pcr_true_post_d (d : Option DataFrame) :
    (calculate_put_call_ratios d true).1 = d := by
  match d with
  | none => rfl
  | some df => exact pcr_true_post df

theorem money_idem (d : Option DataFrame) :
    (calculate_money_at_risk (calculate_money_at_risk d).1).2 =
      (calculate_money_at_risk d).2 := by
  match d with
  | none => rfl
  | some df =>
    by_cases hg : (df.rows.isEmpty || !df.cols.contains "OpenInterest" ||
        !df.cols.contains "MidPrice") = true
    · have h1 : calculate_money_at_risk (some df) = (some df, .ok []) := by
        simp only [calculate_money_at_risk]
        rw [if_pos hg]
      rw [h1]
      show (calculate_money_at_risk (some df)).2 = Except.ok []
      rw [h1]
    · have hne : ¬(df.rows.isEmpty = true) := fun h => hg (by rw [h]; rfl)
      have hne2 : df.rows ≠ [] := fun h => hne (List.isEmpty_iff.mpr h)
      have hO' : "OpenInterest" ∈ df.cols := by
        by_contra hc
        exact hg (by simp [hc])
      have hM' : "MidPrice" ∈ df.cols := by
        by_contra hc
        exact hg (by simp [hc])
      have hgm : ¬(((moneyMutate df).rows.isEmpty ||
          !(moneyMutate df).cols.contains "OpenInterest" ||
          !(moneyMutate df).cols.contains "MidPrice") = true) := by
        simp only [moneyMutate]
        simp [isEmpty_map, List.isEmpty_eq_true, hne2,
          mem_addColName, hO', hM']
      by_cases hs : "Strike" ∈ (moneyMutate df).cols
      · have h1 : calculate_money_at_risk (some df) =
            (some (moneyMutate df), .ok (groupSumBy (moneyMutate df).rows Row.moneyAtRisk)) := by
          simp only [calculate_money_at_risk]
          rw [if_neg (by simp [List.isEmpty_eq_true, hne2, hO', hM']), if_neg (by simp [hs])]
        have h2 : calculate_money_at_risk (some (moneyMutate df)) =
            (some (moneyMutate (moneyMutate df)),
             .ok (groupSumBy (moneyMutate (moneyMutate df)).rows Row.moneyAtRisk)) := by
          simp only [calculate_money_at_risk]
          rw [if_neg hgm, if_neg (by simp [moneyMutate_idem, hs])]
        rw [h1]
        show (calculate_money_at_risk (some (moneyMutate df))).2 = _
        rw [h2, moneyMutate_idem]
      · have h1 : calculate_money_at_risk (some df) =
            (some (moneyMutate df), .error (.keyError "Strike")) := by
          simp only [calculate_money_at_risk]
          rw [if_neg (by simp [List.isEmpty_eq_true, hne2, hO', hM']), if_pos (by simp [hs])]
        have h2 : calculate_money_at_risk (some (moneyMutate df)) =
            (some (moneyMutate (moneyMutate df)), .error (.keyError "Strike")) := by
          simp only [calculate_money_at_risk]
          rw [if_neg hgm, if_pos (by simp [moneyMutate_idem, hs])]
        rw [h1]
        show (calculate_money_at_risk (some (moneyMutate df))).2 = _
        rw [h2]

theorem addTotal_idem (df : DataFrame) : addTotal (addTotal df) = addTotal df := by
  show DataFrame.mk _ _ = DataFrame.mk _ _
  rw [DataFrame.mk.injEq]
  constructor
  · show addColName (addColName df.cols "Total") "Total" = addColName df.cols "Total"
    exact addColName_of_mem (mem_addColName.mpr (Or.inr rfl))
  · show ((df.rows.map _).map _) = df.rows.map _
    rw [List.map_map]
    rfl

theorem gex_idem (d : Option DataFrame) :
    (calculate_gex (calculate_gex d).1).2 = (calculate_gex d).2 := by
  match d with
  | none => rfl
  | some df =>
    by_cases hg : (df.rows.isEmpty || !df.cols.contains "Gamma" ||
        !df.cols.contains "OpenInterest") = true
    · have h1 : calculate_gex (some df) = (some df, .ok ([], none)) := by
        simp only [calculate_gex]
        rw [if_pos hg]
      rw [h1]
      show (calculate_gex (some df)).2 = Except.ok ([], none)
      rw [h1]
    · have hne : ¬(df.rows.isEmpty = true) := fun h => hg (by rw [h]; rfl)
      have hne2 : df.rows ≠ [] := fun h => hne (List.isEmpty_iff.mpr h)
      have hG' : "Gamma" ∈ df.cols := by
        by_contra hc
        exact hg (by simp [hc])
      have hO' : "OpenInterest" ∈ df.cols := by
        by_contra hc
        exact hg (by simp [hc])
      have hgm : ¬(((gexMutate df).rows.isEmpty || !(gexMutate df).cols.contains "Gamma" ||
          !(gexMutate df).cols.contains "OpenInterest") = true) := by
        simp only [gexMutate]
        simp [isEmpty_map, List.isEmpty_eq_true, hne2, mem_addColName, hG', hO']
      by_cases hs : "Strike" ∈ (gexMutate df).cols
      · have h1 : calculate_gex (some df) = (some (gexMutate df),
            .ok (cumsumAux 0 (groupSumBy (gexMutate df).rows Row.dealerGEX),
              gammaFlipOf (groupSumBy (gexMutate df).rows Row.dealerGEX))) := by
          simp only [calculate_gex]
          rw [if_neg (by simp [List.isEmpty_eq_true, hne2, hG', hO']), if_neg (by simp [hs])]
        have h2 : calculate_gex (some (gexMutate df)) = (some (gexMutate (gexMutate df)),
            .ok (cumsumAux 0 (groupSumBy (gexMutate (gexMutate df)).rows Row.dealerGEX),
              gammaFlipOf (groupSumBy (gexMutate (gexMutate df)).rows Row.dealerGEX))) := by
          simp only [calculate_gex]
          rw [if_neg hgm, if_neg (by simp [gexMutate_idem, hs])]
        rw [h1]
        show (calculate_gex (some (gexMutate df))).2 = _
        rw [h2, gexMutate_idem]
      · have h1 : calculate_gex (some df) =
            (some (gexMutate df), .error (.keyError "Strike")) := by
          simp only [calculate_gex]
          rw [if_neg (by simp [List.isEmpty_eq_true, hne2, hG', hO']), if_pos (by simp [hs])]
        have h2 : calculate_gex (some (gexMutate df)) =
            (some (gexMutate (gexMutate df)), .error (.keyError "Strike")) := by
          simp only [calculate_gex]
          rw [if_neg hgm, if_pos (by simp [gexMutate_idem, hs])]
        rw [h1]
        show (calculate_gex (some (gexMutate df))).2 = _
        rw [h2]

theorem vega_idem (d : Option DataFrame) :
    (calculate_vega_exposure (calculate_vega_exposure d).1).2 =
      (calculate_vega_exposure d).2 := by
  match d with
  | none => rfl
  | some df =>
    by_cases hV : "Vega" ∈ df.cols
    · by_cases hO : "OpenInterest" ∈ df.cols
      · by_cases hs : "Strike" ∈ (vegaMutate df).cols
        · have h1 : calculate_vega_exposure (some df) = (some (vegaMutate df),
              .ok (groupSumBy (vegaMutate df).rows Row.dealerVegaExposure)) := by
            simp only [calculate_vega_exposure]
            rw [if_neg (by simp [hV]), if_neg (by simp [hO]), if_neg (by simp [hs])]
          have h2 : calculate_vega_exposure (some (vegaMutate df)) =
              (some (vegaMutate (vegaMutate df)),
               .ok (groupSumBy (vegaMutate (vegaMutate df)).rows Row.dealerVegaExposure)) := by
            simp only [calculate_vega_exposure]
            rw [if_neg (by simp [vegaMutate_cols_subset df hV]),
              if_neg (by simp [vegaMutate_cols_subset df hO]),
              if_neg (by simp [vegaMutate_idem, hs])]
          rw [h1]
          show (calculate_vega_exposure (some (vegaMutate df))).2 = _
          rw [h2, vegaMutate_idem]
        · have h1 : calculate_vega_exposure (some df) =
              (some (vegaMutate df), .error (.keyError "Strike")) := by
            simp only [calculate_vega_exposure]
            rw [if_neg (by simp [hV]), if_neg (by simp [hO]), if_pos (by simp [hs])]
          have h2 : calculate_vega_exposure (some (vegaMutate df)) =
              (some (vegaMutate (vegaMutate df)), .error (.keyError "Strike")) := by
            simp only [calculate_vega_exposure]
            rw [if_neg (by simp [vegaMutate_cols_subset df hV]),
              if_neg (by simp [vegaMutate_cols_subset df hO]),
              if_pos (by simp [vegaMutate_idem, hs])]
          rw [h1]
          show (calculate_vega_exposure (some (vegaMutate df))).2 = _
          rw [h2]
      · have h1 : calculate_vega_exposure (some df) =
            (some df, .error (.keyError "OpenInterest")) := by
          simp only [calculate_vega_exposure]
          rw [if_neg (by simp [hV]), if_pos (by simp [hO])]
        rw [h1]
        show (calculate_vega_exposure (some df)).2 = _
        rw [h1]
    · have h1 : calculate_vega_exposure (some df) =
          (some df, .error (.keyError "Vega")) := by
        simp only [calculate_vega_exposure]
        rw [if_pos (by simp [hV])]
      rw [h1]
      show (calculate_vega_exposure (some df)).2 = _
      rw [h1]

theorem theta_idem (d : Option DataFrame) :
    (calculate_theta_exposure (calculate_theta_exposure d).1).2 =
      (calculate_theta_exposure d).2 := by
  match d with
  | none => rfl
  | some df =>
    by_cases hV : "Theta" ∈ df.cols
    · by_cases hO : "OpenInterest" ∈ df.cols
      · by_cases hs : "Strike" ∈ (thetaMutate df).cols
        · have h1 : calculate_theta_exposure (some df) = (some (thetaMutate df),
              .ok (groupSumBy (thetaMutate df).rows Row.dealerThetaExposure)) := by
            simp only [calculate_theta_exposure]
            rw [if_neg (by simp [hV]), if_neg (by simp [hO]), if_neg (by simp [hs])]
          have h2 : calculate_theta_exposure (some (thetaMutate df)) =
              (some (thetaMutate (thetaMutate df)),
               .ok (groupSumBy (thetaMutate (thetaMutate df)).rows Row.dealerThetaExposure)) := by
            simp only [calculate_theta_exposure]
            rw [if_neg (by simp [thetaMutate_cols_subset df hV]),
              if_neg (by simp [thetaMutate_cols_subset df hO]),
              if_neg (by simp [thetaMutate_idem, hs])]
          rw [h1]
          show (calculate_theta_exposure (some (thetaMutate df))).2 = _
          rw [h2, thetaMutate_idem]
        · have h1 : calculate_theta_exposure (some df) =
              (some (thetaMutate df), .error (.keyError "Strike")) := by
            simp only [calculate_theta_exposure]
            rw [if_neg (by simp [hV]), if_neg (by simp [hO]), if_pos (by simp [hs])]
          have h2 : calculate_theta_exposure (some (thetaMutate df)) =
              (some (thetaMutate (thetaMutate df)), .error (.keyError "Strike")) := by
            simp only [calculate_theta_exposure]
            rw [if_neg (by simp [thetaMutate_cols_subset df hV]),
              if_neg (by simp [thetaMutate_cols_subset df hO]),
              if_pos (by simp [thetaMutate_idem, hs])]
          rw [h1]
          show (calculate_theta_exposure (some (thetaMutate df))).2 = _
          rw [h2]
      · have h1 : calculate_theta_exposure (some df) =
            (some df, .error (.keyError "OpenInterest")) := by
          simp only [calculate_theta_exposure]
          rw [if_neg (by simp [hV]), if_pos (by simp [hO])]
        rw [h1]
        show (calculate_theta_exposure (some df)).2 = _
        rw [h1]
    · have h1 : calculate_theta_exposure (some df) =
          (some df, .error (.keyError "Theta")) := by
        simp only [calculate_theta_exposure]
        rw [if_pos (by simp [hV])]
      rw [h1]
      show (calculate_theta_exposure (some df)).2 = _
      rw [h1]

theorem pcr_idem (d : Option DataFrame) (b : Bool) :
    (calculate_put_call_ratios (calculate_put_call_ratios d b).1 b).2 =
      (calculate_put_call_ratios d b).2 := by
  cases b with
  | true => rw [pcr_true_post_d]
  | false =>
    match d with
    | none => rfl
    | some df =>
      by_cases hemp : df.rows.isEmpty = true
      · have h1 : calculate_put_call_ratios (some df) false = (some df, .ok []) := by
          simp only [calculate_put_call_ratios]
          rw [if_pos hemp]
        rw [h1]
        show (calculate_put_call_ratios (some df) false).2 = Except.ok []
        rw [h1]
      · have hf : df.rows.isEmpty = false := by
          cases h : df.rows.isEmpty
          · rfl
          · exact absurd h hemp
        have hne2 : (addTotal df).rows.isEmpty = false := by
          show (df.rows.map _).isEmpty = false
          rw [isEmpty_map]
          exact hf
        by_cases hTy : "Type" ∈ (addTotal df).cols
        · by_cases hV : "Volume" ∈ (addTotal df).cols
          · by_cases hOI : "OpenInterest" ∈ (addTotal df).cols
            · have h1 : calculate_put_call_ratios (some df) false =
                  (some (dropTotal (addTotal df)),
                   .ok [(GroupKey.totalKey, pcRatiosOf (addTotal df).rows)]) := by
                simp only [calculate_put_call_ratios]
                rw [if_neg hemp, if_neg (by simp [hTy]), if_neg (by simp [hV]),
                  if_neg (by simp [hOI])]
              have hd2 : ¬((dropTotal (addTotal df)).rows.isEmpty = true) := by
                show ¬(((df.rows.map _).map _).isEmpty = true)
                rw [isEmpty_map, isEmpty_map, hf]
                simp
              have hTy2 : "Type" ∈ (addTotal (dropTotal (addTotal df))).cols :=
                mem_addColName.mpr (Or.inl (List.mem_filter.mpr ⟨hTy, by decide⟩))
              have hV2 : "Volume" ∈ (addTotal (dropTotal (addTotal df))).cols :=
                mem_addColName.mpr (Or.inl (List.mem_filter.mpr ⟨hV, by decide⟩))
              have hOI2 : "OpenInterest" ∈ (addTotal (dropTotal (addTotal df))).cols :=
                mem_addColName.mpr (Or.inl (List.mem_filter.mpr ⟨hOI, by decide⟩))
              have h2 : calculate_put_call_ratios (some (dropTotal (addTotal df))) false =
                  (some (dropTotal (addTotal (dropTotal (addTotal df)))),
                   .ok [(GroupKey.totalKey,
                     pcRatiosOf (addTotal (dropTotal (addTotal df))).rows)]) := by
                simp only [calculate_put_call_ratios]
                rw [if_neg hd2, if_neg (by simp [hTy2]), if_neg (by simp [hV2]),
                  if_neg (by simp [hOI2])]
              have hrows : (addTotal (dropTotal (addTotal df))).rows = (addTotal df).rows := by
                show ((df.rows.map _).map _).map _ = df.rows.map _
                rw [List.map_map, List.map_map]
                rfl
              rw [h1]
              show (calculate_put_call_ratios (some (dropTotal (addTotal df))) false).2 = _
              rw [h2, hrows]
            · have h1 : calculate_put_call_ratios (some df) false =
                  (some (addTotal df), .error (.keyError "OpenInterest")) := by
                simp only [calculate_put_call_ratios]
                rw [if_neg hemp, if_neg (by simp [hTy]), if_neg (by simp [hV]),
                  if_pos (by simp [hOI])]
              have h2 : calculate_put_call_ratios (some (addTotal df)) false =
                  (some (addTotal (addTotal df)), .error (.keyError "OpenInterest")) := by
                simp only [calculate_put_call_ratios]
                rw [if_neg (by simp [hne2]), if_neg (by simp [addTotal_idem, hTy]),
                  if_neg (by simp [addTotal_idem, hV]), if_pos (by simp [addTotal_idem, hOI])]
              rw [h1]
              show (calculate_put_call_ratios (some (addTotal df)) false).2 = _
              rw [h2]
          · have h1 : calculate_put_call_ratios (some df) false =
                (some (addTotal df), .error (.keyError "Volume")) := by
              simp only [calculate_put_call_ratios]
              rw [if_neg hemp, if_neg (by simp [hTy]), if_pos (by simp [hV])]
            have h2 : calculate_put_call_ratios (some (addTotal df)) false =
                (some (addTotal (addTotal df)), .error (.keyError "Volume")) := by
              simp only [calculate_put_call_ratios]
              rw [if_neg (by simp [hne2]), if_neg (by simp [addTotal_idem, hTy]),
                if_pos (by simp [addTotal_idem, hV])]
            rw [h1]
            show (calculate_put_call_ratios (some (addTotal df)) false).2 = _
            rw [h2]
        · have h1 : calculate_put_call_ratios (some df) false =
              (some (addTotal df), .error (.keyError "Type")) := by
            simp only [calculate_put_call_ratios]
            rw [if_neg hemp, if_pos (by simp [hTy])]
          have h2 : calculate_put_call_ratios (some (addTotal df)) false =
              (some (addTotal (addTotal df)), .error (.keyError "Type")) := by
            simp only [calculate_put_call_ratios]
            rw [if_neg (by simp [hne2]), if_pos (by simp [addTotal_idem, hTy])]
          rw [h1]
          show (calculate_put_call_ratios (some (addTotal df)) false).2 = _
          rw [h2]

/-- C9: every metric function is idempotent across calls on the same
table: a second call, made on the table exactly as the first call left it
(including any in-place column it materialized), returns the same output
tables and the same scalar results — no hidden state accumulates. -/
theorem metric_engine_idempotent (d : Option DataFrame) (b : Bool) :
    (calculate_put_call_ratios (calculate_put_call_ratios d b).1 b).2 =
      (calculate_put_call_ratios d b).2 ∧
    (calculate_money_at_risk (calculate_money_at_risk d).1).2 =
      (calculate_money_at_risk d).2 ∧
    (calculate_max_pain (calculate_max_pain d).1).2 = (calculate_max_pain d).2 ∧
    (calculate_gex (calculate_gex d).1).2 = (calculate_gex d).2 ∧
    (calculate_vega_exposure (calculate_vega_exposure d).1).2 =
      (calculate_vega_exposure d).2 ∧
    (calculate_theta_exposure (calculate_theta_exposure d).1).2 =
      (calculate_theta_exposure d).2 := by
  refine ⟨pcr_idem d b, money_idem d, ?_, gex_idem d, vega_idem d, theta_idem d⟩
  rw [max_pain_post]

end Opciones
